import Mathlib

/-!
# Verification of the weekly activity-tracking and claim workflow

A shallow embedding of the tracking/claim core of the repository
(`src/cogs/Tracking.py`, `src/utils/timeutils.py`, `src/utils/db.py`,
`src/utils/checks.py`) together with proofs about it.

Modelling conventions:
* The SQLite tables (`activity_counts`, `activity_last_counted`,
  `weekly_claims`, `weekly_sessions`, `weekly_runs`) are lists of row
  structures inside one state `St`; the SQL statements used by the code
  are translated operation by operation (find / map-update / append /
  upsert / filter-delete).
* Week keys are modelled as the integer day number of the week's Sunday
  (the ISO week-start string used by the code is in bijection with it).
* Timestamps (`time.time()`) are integers, passed explicitly to each
  operation.
* Python exceptions that escape a function are modelled with
  `Except PyErr`; since database writes already performed are not rolled
  back by an exception, every fallible operation returns the state it
  reached **together with** the outcome.
* Outbound user-visible messages are recorded in an `outbox` trace when
  delivery succeeds; whether a direct message to a user can be delivered
  is an environment function `dmOk`.  Reaching the `fetch_user`/`send`
  call of a weekly-request contact is recorded in `contactAttempts`
  (both delivered and failed attempts), which makes "contact attempt"
  claims expressible.
-/

namespace AvenueGuard

/-- Claim status strings of `weekly_claims.status`. -/
inductive Status where
  | pending
  | claimed
  | declined
  | timedOut
  | dmClosed
deriving DecidableEq, Repr

/-- Session stage strings of `weekly_sessions.stage`. -/
inductive Stage where
  | awaitingRequest
  | confirmDecline
deriving DecidableEq, Repr

/-- A row of `activity_counts` (PK: guild_id, user_id, week_start). -/
structure ActivityRow where
  guild : Nat
  user : Nat
  week : Int
  count : Nat
deriving DecidableEq, Repr

/-- A row of `activity_last_counted` (PK: guild_id, user_id). -/
structure LastRow where
  guild : Nat
  user : Nat
  lastCountedTs : Int
deriving DecidableEq, Repr

/-- A row of `weekly_claims` (PK: guild_id, week_start, user_id). -/
structure Claim where
  guild : Nat
  week : Int
  user : Nat
  rank : Nat
  status : Status
  contactedTs : Int
deriving DecidableEq, Repr

/-- A row of `weekly_sessions` (PK: guild_id, week_start, user_id). -/
structure Session where
  guild : Nat
  week : Int
  user : Nat
  stage : Stage
  expiresTs : Int
  active : Bool
deriving DecidableEq, Repr

/-- A row of `weekly_runs` (PK: guild_id, week_start). -/
structure RunRow where
  guild : Nat
  week : Int
  ranTs : Int
deriving DecidableEq, Repr

/-- Outbound messages actually delivered (the observable effect of the
successful `send` calls in `Tracking.py`). -/
inductive Msg where
  | requestDm (user : Nat) (text : String)
  | timeoutNotice (user : Nat)
  | confirmPrompt (user : Nat)
  | ack (user : Nat)
  | nudge (user : Nat)
  | report (user : Nat) (week : Int) (content : String)
deriving DecidableEq, Repr

/-- The durable + observable state threaded through the handlers. -/
structure St where
  activity : List ActivityRow
  lastCounted : List LastRow
  claims : List Claim
  sessions : List Session
  runs : List RunRow
  outbox : List Msg
  contactAttempts : List (Int × Nat)
deriving DecidableEq, Repr

/-- Exceptions that escape a modelled function. -/
inductive PyErr where
  /-- Raised as `NameError` at Tracking.py:591, where the log f-string of
  `_contact_next_eligible` interpolates the unbound name of the
  winners-to-dm count. -/
  | nameErrorWinnersToDm
deriving DecidableEq, Repr

/-- A guild member as seen through `guild.get_member`. -/
structure Member where
  userId : Nat
  roleIds : List Nat
  isBot : Bool
deriving DecidableEq, Repr

/-- The configuration values read by the tracking cog (with the defaults
of the `cfg.get(...)` calls already resolved by the caller). -/
structure Cfg where
  allowedGuildId : Nat
  topLimit : Nat
  winnersToDm : Nat
  dmTimeoutHours : Nat
  countCooldownSeconds : Int
  excludedRoleIds : List Nat
  excludedChannelIds : List Nat
  weeklyChannelConfigured : Bool
deriving Repr

/-- External collaborators: config, the (single) configured guild's
member list, and deliverability of direct messages per user. -/
structure Env where
  cfg : Cfg
  guildPresent : Bool
  members : List Member
  dmOk : Nat → Bool

namespace Env

/-- Python `guild.get_member(uid)`. -/
def getMember (env : Env) (uid : Nat) : Option Member :=
  env.members.find? (fun m => m.userId == uid)

/-- guild id used as the DB key (the bot resolves the single configured
guild by `allowed_guild_id`). -/
def gId (env : Env) : Nat := env.cfg.allowedGuildId

/-- Python `any(r.id in excluded_role_ids for r in member.roles)`; the
`if excluded_role_ids and ...` guard in the code short-circuits the empty
set, which gives the same value. -/
def hasExcludedRole (env : Env) (m : Member) : Bool :=
  m.roleIds.any (fun r => env.cfg.excludedRoleIds.contains r)

end Env

/-! ## SQL-statement helpers -/

/-- the `WHERE guild_id=? AND week_start=? AND user_id=?` predicate on claims. -/
def claimKeyB (g : Nat) (w : Int) (u : Nat) (c : Claim) : Bool :=
  c.guild == g && c.week == w && c.user == u

/-- the `WHERE guild_id=? AND week_start=? AND user_id=?` predicate on sessions. -/
def sessKeyB (g : Nat) (w : Int) (u : Nat) (s : Session) : Bool :=
  s.guild == g && s.week == w && s.user == u

/-- SQL `SELECT ... FROM weekly_claims WHERE guild_id=? AND week_start=? AND user_id=?` -/
def findClaim (st : St) (g : Nat) (w : Int) (u : Nat) : Option Claim :=
  st.claims.find? (claimKeyB g w u)

/-- SQL `UPDATE weekly_claims SET status=? WHERE guild_id=? AND week_start=? AND user_id=?` -/
def setClaimStatus (st : St) (g : Nat) (w : Int) (u : Nat) (s : Status) : St :=
  { st with claims :=
      st.claims.map (fun c => if claimKeyB g w u c then { c with status := s } else c) }

/-- plain `INSERT INTO weekly_claims` (every call site checks for an
existing row first, so the primary key cannot collide). -/
def insertClaim (st : St) (c : Claim) : St :=
  { st with claims := st.claims ++ [c] }

/-- SQL `SELECT ... FROM weekly_sessions WHERE guild_id=? AND week_start=? AND user_id=?` -/
def findSession (st : St) (g : Nat) (w : Int) (u : Nat) : Option Session :=
  st.sessions.find? (sessKeyB g w u)

/-- SQL `UPDATE weekly_sessions SET active=0 WHERE ...` -/
def deactivateSession (st : St) (g : Nat) (w : Int) (u : Nat) : St :=
  { st with sessions :=
      st.sessions.map (fun s => if sessKeyB g w u s then { s with active := false } else s) }

/-- SQL `UPDATE weekly_sessions SET stage=? WHERE ...` -/
def setSessionStage (st : St) (g : Nat) (w : Int) (u : Nat) (stage : Stage) : St :=
  { st with sessions :=
      st.sessions.map (fun s => if sessKeyB g w u s then { s with stage := stage } else s) }

/-- SQL `INSERT INTO weekly_sessions ... ON CONFLICT(guild_id,week_start,user_id)
DO UPDATE SET stage='awaiting_request', expires_ts=excluded.expires_ts, active=1` -/
def upsertSession (st : St) (g : Nat) (w : Int) (u : Nat) (expires : Int) : St :=
  if st.sessions.any (sessKeyB g w u) then
    { st with sessions :=
        st.sessions.map (fun s =>
          if sessKeyB g w u s then
            { s with stage := Stage.awaitingRequest, expiresTs := expires, active := true }
          else s) }
  else
    { st with sessions := st.sessions ++
        [{ guild := g, week := w, user := u, stage := Stage.awaitingRequest,
           expiresTs := expires, active := true }] }

/-- the active session for a user with the greatest `week_start`
(`SELECT ... WHERE guild_id=? AND user_id=? AND active=1 ORDER BY week_start DESC LIMIT 1`). -/
def latestActiveSession (st : St) (g : Nat) (u : Nat) : Option Session :=
  (st.sessions.filter (fun s => s.guild == g && s.user == u && s.active)).foldl
    (fun acc s => match acc with
      | none => some s
      | some a => if s.week > a.week then some s else acc) none

/-- as above but restricted to stage `confirm_decline`
(the lookup of `handle_decline_confirm`). -/
def latestConfirmSession (st : St) (g : Nat) (u : Nat) : Option Session :=
  (st.sessions.filter (fun s =>
      s.guild == g && s.user == u && s.active && s.stage == Stage.confirmDecline)).foldl
    (fun acc s => match acc with
      | none => some s
      | some a => if s.week > a.week then some s else acc) none

/-- SQL `SELECT last_counted_ts FROM activity_last_counted WHERE guild_id=? AND user_id=?` -/
def findLast (st : St) (g : Nat) (u : Nat) : Option LastRow :=
  st.lastCounted.find? (fun r => r.guild == g && r.user == u)

/-- SQL `INSERT INTO activity_counts(...) VALUES(?,?,?,1) ON CONFLICT DO UPDATE SET count=count+1` -/
def upsertActivity (st : St) (g : Nat) (u : Nat) (w : Int) : St :=
  if st.activity.any (fun r => r.guild == g && r.user == u && r.week == w) then
    { st with activity :=
        st.activity.map (fun r =>
          if r.guild == g && r.user == u && r.week == w then { r with count := r.count + 1 } else r) }
  else
    { st with activity := st.activity ++ [{ guild := g, user := u, week := w, count := 1 }] }

/-- SQL `INSERT INTO activity_last_counted(...) VALUES(?,?,?) ON CONFLICT DO UPDATE SET
last_counted_ts=excluded.last_counted_ts` -/
def upsertLast (st : St) (g : Nat) (u : Nat) (ts : Int) : St :=
  if st.lastCounted.any (fun r => r.guild == g && r.user == u) then
    { st with lastCounted :=
        st.lastCounted.map (fun r =>
          if r.guild == g && r.user == u then { r with lastCountedTs := ts } else r) }
  else
    { st with lastCounted := st.lastCounted ++ [{ guild := g, user := u, lastCountedTs := ts }] }

/-- SQL `SELECT ran_ts FROM weekly_runs WHERE guild_id=? AND week_start=?` -/
def findRun (st : St) (g : Nat) (w : Int) : Option RunRow :=
  st.runs.find? (fun r => r.guild == g && r.week == w)

/-- SQL `INSERT OR REPLACE INTO weekly_runs(guild_id, week_start, ran_ts)` -/
def insertOrReplaceRun (st : St) (g : Nat) (w : Int) (ts : Int) : St :=
  { st with runs :=
      (st.runs.filter (fun r => !(r.guild == g && r.week == w))) ++
        [{ guild := g, week := w, ranTs := ts }] }

/-- SQL `ORDER BY count DESC` realised as insertion sort (descending, stable). -/
def insertByCountDesc (r : ActivityRow) : List ActivityRow → List ActivityRow
  | [] => [r]
  | x :: xs => if x.count ≥ r.count then x :: insertByCountDesc r xs else r :: x :: xs

def sortByCountDesc (l : List ActivityRow) : List ActivityRow :=
  l.foldr insertByCountDesc []

/-- SQL `SELECT user_id, count FROM activity_counts WHERE guild_id=? AND week_start=?
ORDER BY count DESC LIMIT ?` -/
def topRows (st : St) (g : Nat) (w : Int) (limit : Nat) : List ActivityRow :=
  (sortByCountDesc (st.activity.filter (fun r => r.guild == g && r.week == w))).take limit

/-! ## `utils/timeutils.py` -/

/-- A Europe/Madrid wall-clock datetime at second resolution, as a day
number and a second-of-day; `day % 7 = 0` is a Monday so that `day % 7`
is Python's `datetime.weekday()`. -/
structure MDateTime where
  day : Int
  sec : Int
deriving DecidableEq, Repr

/-- Function `week_start_sunday`: the most recent Sunday 00:00 at or before `dt`. -/
def week_start_sunday (dt : MDateTime) : MDateTime :=
  let daysSinceSunday := (dt.day % 7 + 1) % 7
  { day := dt.day - daysSinceSunday, sec := 0 }

/-- Python `this_sunday - timedelta(seconds=1)` (the only timedelta the weekly
loop uses). -/
def minusOneSecond (dt : MDateTime) : MDateTime :=
  if dt.sec = 0 then { day := dt.day - 1, sec := 86399 } else { day := dt.day, sec := dt.sec - 1 }

/-- The week key stored in the database: the day number of the ISO
week-start string. -/
def weekKey (dt : MDateTime) : Int := (week_start_sunday dt).day

/-! ## string helpers (`casefold`, substring containment) -/

/-- Whether `l` begins with `needle`. -/
def startsWith : List Char → List Char → Bool
  | [], _ => true
  | _ :: _, [] => false
  | a :: as, b :: bs => a == b && startsWith as bs

/-- Whether `needle` occurs as a contiguous sublist of `hay`
(Python's `needle in hay` on strings). -/
def containsSub (needle : List Char) : List Char → Bool
  | [] => startsWith needle []
  | c :: cs => startsWith needle (c :: cs) || containsSub needle cs

/-- ASCII whitespace (the characters Python's `str.strip()` removes that
matter here). -/
def isSpaceChar (c : Char) : Bool :=
  c == ' ' || c == '\t' || c == '\n' || c == '\r'

/-- Python `str.strip()` on the character list. -/
def trimList (l : List Char) : List Char :=
  ((l.dropWhile isSpaceChar).reverse.dropWhile isSpaceChar).reverse

/-- Python `str.casefold()`, modelled as ASCII lowercasing (they agree on
the ASCII keywords and the decline phrase the code compares). -/
def toLowerList (l : List Char) : List Char :=
  l.map Char.toLower

/-- Python `str.strip()` producing a string again. -/
def pyStrip (s : String) : String :=
  String.mk (trimList s.data)

/-- append a delivered message to the outbox. -/
def pushMsg (st : St) (m : Msg) : St :=
  { st with outbox := st.outbox ++ [m] }

/-- Constant `REQUEST_DM_TEXT` (Tracking.py:16, the contact message template). -/
def REQUEST_DM_TEXT : String :=
  "Congratulations! You have been the most active member this week, so you have earned a **level request**. Please answer this message with the following format:\n> Level Name:\n> Level ID:\n> Creator:\n> Video (required for demons and platformers):\n> Notes (Optional):\nIf you don’t want to claim this request, please answer with “I do not want this request”\nIf you have any problems, please contact any of the Admins/Owners.\nThanks for bringing so much dedication to our community!"

/-- Modelled from the spec: `_build_request_dm_text` is called at
Tracking.py:548 but is defined nowhere under src.  Per spec §4.3 the
contact message is the structured-reply request containing the timeout
window; it is modelled as a pure string built from the template and the
deadline, so that delivery of the contact message fails exactly when the
recipient's direct messages are closed. -/
def build_request_dm_text (timeoutHours : Nat) (expires : Int) : String :=
  REQUEST_DM_TEXT ++ " (you have " ++ toString timeoutHours ++ " hours, until " ++
    toString expires ++ ")"

/-! ## `_contact_user_for_week` (Tracking.py:530-583) -/

/-- One contact attempt for `(week, uid)`: skip if a claim row already
exists; otherwise record the attempt and either (delivery ok) insert a
`pending` claim and upsert an active `awaiting_request` session, or
(delivery failed) insert a `dm_closed` claim and no session.  Returns
the state and the function's boolean result. -/
def contact_user_for_week (env : Env) (now : Int) (st : St) (week : Int) (uid : Nat)
    (rank : Nat) (timeoutHours : Nat) : St × Bool :=
  match findClaim st env.gId week uid with
  | some _ => (st, false)      -- "skipped_already_contacted"
  | none =>
    let expires : Int := now + (timeoutHours : Int) * 3600
    let st := { st with contactAttempts := st.contactAttempts ++ [(week, uid)] }
    if env.dmOk uid then
      let st := pushMsg st (Msg.requestDm uid (build_request_dm_text timeoutHours expires))
      let st := insertClaim st
        { guild := env.gId, week := week, user := uid, rank := rank,
          status := Status.pending, contactedTs := now }
      let st := upsertSession st env.gId week uid expires
      (st, true)
    else
      let st := insertClaim st
        { guild := env.gId, week := week, user := uid, rank := rank,
          status := Status.dmClosed, contactedTs := now }
      (st, false)

/-! ## `run_weekly_job` (Tracking.py:434-473) -/

/-- One-based enumeration (`enumerate(ranked, start=1)`). -/
def enumFrom {α : Type} : Nat → List α → List (Nat × α)
  | _, [] => []
  | n, a :: as => (n, a) :: enumFrom (n + 1) as

/-- eligibility filter of `run_weekly_job`: member present in the guild
and not holding an excluded role (no bot check here, faithful to the
source). -/
def eligibleRanked (env : Env) (st : St) (week : Int) : List Nat :=
  ((topRows st env.gId week env.cfg.topLimit).filterMap (fun r =>
    match env.getMember r.user with
    | none => none
    | some m => if env.hasExcludedRole m then none else some r.user))

/-- the contact loop of `run_weekly_job`: walk the ranked list with its
1-based index, stop once `winners_to_dm` successful contacts are
reached. -/
def jobLoop (env : Env) (now : Int) (week : Int) (timeoutHours winners : Nat) :
    List (Nat × Nat) → Nat → St → St
  | [], _, st => st
  | (idx, uid) :: rest, contacted, st =>
    if winners ≤ contacted then st
    else
      let p := contact_user_for_week env now st week uid idx timeoutHours
      jobLoop env now week timeoutHours winners rest
        (if p.2 then contacted + 1 else contacted) p.1

/-- the weekly ranking-and-offer job for one week. -/
def run_weekly_job (env : Env) (now : Int) (st : St) (week : Int) : St :=
  if !env.guildPresent then st
  else
    jobLoop env now week env.cfg.dmTimeoutHours env.cfg.winnersToDm
      (enumFrom 1 (eligibleRanked env st week)) 0 st

/-! ## `_contact_next_eligible` (Tracking.py:585-636) -/

/-- The body of `_contact_next_eligible` from line 593 on: walk the raw
top rows with a 1-based index (note: the index also counts rows that are
then skipped as ineligible or already claimed), contact the first
candidate with no claim row at all.  In the source this code is
unreachable: line 591 raises before it (see `contact_next_eligible`). -/
def contactNextEligibleScan (env : Env) (now : Int) (timeoutHours : Nat) (week : Int) :
    List (Nat × ActivityRow) → St → St
  | [], st => st      -- "no_eligible_member"
  | (idx, r) :: rest, st =>
    match env.getMember r.user with
    | none => contactNextEligibleScan env now timeoutHours week rest st
    | some m =>
      if env.hasExcludedRole m then contactNextEligibleScan env now timeoutHours week rest st
      else
        match findClaim st env.gId week r.user with
        | some _ => contactNextEligibleScan env now timeoutHours week rest st
        | none => (contact_user_for_week env now st week r.user idx timeoutHours).1

/-- Function `_contact_next_eligible`: after reading the configuration, line 591
builds the log message with an f-string that interpolates
`winners_to_dm` — a name that is a local of `run_weekly_job` and is not
bound in this function (nor globally).  Evaluating that f-string raises
`NameError` before the logging call, the candidate query and the scan,
so the function always fails without touching the state. -/
def contact_next_eligible (env : Env) (_now : Int) (st : St) (_week : Int) :
    St × Except PyErr Unit :=
  let _topLimit := env.cfg.topLimit
  let _timeoutHours := env.cfg.dmTimeoutHours
  (st, Except.error PyErr.nameErrorWinnersToDm)

/-! ## `_record_request` (Tracking.py:241-284) and `_handle_dm` (188-239) -/

/-- record a valid structured submission: report it to the weekly-request
channel (if configured), mark the claim `claimed`, deactivate the
session, and send a thank-you acknowledgment (best-effort). -/
def record_request (env : Env) (st : St) (u : Nat) (week : Int) (content : String) : St :=
  let _rank := (findClaim st env.gId week u).map (fun c => c.rank)
  let st := if env.cfg.weeklyChannelConfigured then pushMsg st (Msg.report u week content) else st
  let st := setClaimStatus st env.gId week u Status.claimed
  let st := deactivateSession st env.gId week u
  let st := if env.dmOk u then pushMsg st (Msg.ack u) else st
  st

/-- the decline phrase comparison
(`content.casefold() == "i do not want this request".casefold()`). -/
def isDeclinePhrase (content : String) : Bool :=
  toLowerList (trimList content.data) == "i do not want this request".data

/-- the forgiving submission check: the lowered reply contains all three
of "name", "creator" and "id" as substrings. -/
def isValidSubmission (content : String) : Bool :=
  let low := toLowerList (trimList content.data)
  containsSub ("name".data) low && containsSub ("creator".data) low && containsSub ("id".data) low

/-- Function `_handle_dm`: dispatch a private reply against the user's most recent
active session. -/
def handle_dm (env : Env) (now : Int) (st : St) (u : Nat) (content : String) : St :=
  if !env.guildPresent then st
  else
    match env.getMember u with
    | none => st
    | some _ =>
      match latestActiveSession st env.gId u with
      | none => st
      | some sess =>
        if now > sess.expiresTs then st     -- expired: the timeout sweep will take it
        else if isDeclinePhrase content then
          -- the stage update sits after the prompt send inside one try
          if env.dmOk u then
            setSessionStage (pushMsg st (Msg.confirmPrompt u)) env.gId sess.week u
              Stage.confirmDecline
          else st
        else if sess.stage == Stage.confirmDecline then st
        else if isValidSubmission content then
          record_request env st u sess.week (pyStrip content)
        else
          if env.dmOk u then pushMsg st (Msg.nudge u) else st

/-! ## `handle_decline_confirm` (Tracking.py:287-337) -/

/-- the Yes/No button handler of the decline confirmation. -/
def handle_decline_confirm (env : Env) (now : Int) (st : St) (u : Nat)
    (confirmed : Bool) : St × Except PyErr Unit :=
  if !env.guildPresent then (st, Except.ok ())
  else
    match latestConfirmSession st env.gId u with
    | none => (st, Except.ok ())          -- "No pending confirmation found."
    | some sess =>
      if !confirmed then
        (setSessionStage st env.gId sess.week u Stage.awaitingRequest, Except.ok ())
      else
        let st := setClaimStatus st env.gId sess.week u Status.declined
        let st := deactivateSession st env.gId sess.week u
        contact_next_eligible env now st sess.week

/-! ## `_process_timeouts` (Tracking.py:397-431) -/

/-- process the snapshot of expired active sessions; the exception raised
by the cascade aborts the remaining batch (state reached so far is
kept). -/
def timeoutLoop (env : Env) (now : Int) : List Session → St → St × Except PyErr Unit
  | [], st => (st, Except.ok ())
  | r :: rest, st =>
    let st := if env.dmOk r.user then pushMsg st (Msg.timeoutNotice r.user) else st
    let st := setClaimStatus st env.gId r.week r.user Status.timedOut
    let st := deactivateSession st env.gId r.week r.user
    match contact_next_eligible env now st r.week with
    | (st', Except.error e) => (st', Except.error e)
    | (st', Except.ok _) => timeoutLoop env now rest st'

/-- the timeout sweep: select all active sessions with
`expires_ts <= now`, then process them in order. -/
def process_timeouts (env : Env) (now : Int) (st : St) : St × Except PyErr Unit :=
  if !env.guildPresent then (st, Except.ok ())
  else
    timeoutLoop env now
      (st.sessions.filter (fun s => s.guild == env.gId && s.active && s.expiresTs ≤ now)) st

/-! ## `_weekly_loop` tick (Tracking.py:340-384) -/

/-- one tick of the weekly scheduler: skip if this Sunday's run row
exists; otherwise run the offer job for the previous week, record the
run row for this Sunday, then delete the previous week's activity
counts. -/
def weekly_tick (env : Env) (nowDt : MDateTime) (now : Int) (st : St) : St :=
  if !env.guildPresent then st
  else
    let thisSunday := week_start_sunday nowDt
    match findRun st env.gId thisSunday.day with
    | some _ => st
    | none =>
      let prevWeekStart := (week_start_sunday (minusOneSecond thisSunday)).day
      let st := run_weekly_job env now st prevWeekStart
      let st := insertOrReplaceRun st env.gId thisSunday.day now
      { st with activity :=
          st.activity.filter (fun r => !(r.guild == env.gId && r.week == prevWeekStart)) }

/-! ## `force_dm_for_user` (Tracking.py:686-738) -/

/-- the best-effort rank estimate of `force_dm_for_user`: walk all
activity rows of the week in descending count order (no limit), skipping
absent members, bots and excluded roles, counting until the target user
is found. -/
def forceRankScan (env : Env) (uid : Nat) : List ActivityRow → Nat → Nat
  | [], rank => rank
  | r :: rest, rank =>
    match env.getMember r.user with
    | none => forceRankScan env uid rest rank
    | some m =>
      if m.isBot then forceRankScan env uid rest rank
      else if env.hasExcludedRole m then forceRankScan env uid rest rank
      else if r.user == uid then rank
      else forceRankScan env uid rest (rank + 1)

def force_rank (env : Env) (st : St) (week : Int) (uid : Nat) : Nat :=
  forceRankScan env uid
    (sortByCountDesc (st.activity.filter (fun r => r.guild == env.gId && r.week == week))) 1

/-- admin force-contact: refused for absent members, bots, excluded
roles, and any existing claim whose status is not `dm_closed`; a
`dm_closed` claim (and its session) is deleted and one fresh contact
attempt is made with a freshly computed rank. -/
def force_dm_for_user (env : Env) (now : Int) (st : St) (week : Int) (uid : Nat)
    (timeoutHours? : Option Nat) : St × Bool :=
  let timeoutH := match timeoutHours? with      -- `timeout_hours or cfg…` (0 is falsy)
    | some t => if t = 0 then env.cfg.dmTimeoutHours else t
    | none => env.cfg.dmTimeoutHours
  match env.getMember uid with
  | none => (st, false)                         -- "User is not in the server."
  | some m =>
    if m.isBot then (st, false)
    else if env.hasExcludedRole m then (st, false)
    else
      match findClaim st env.gId week uid with
      | some cl =>
        if cl.status ≠ Status.dmClosed then (st, false)
        else
          let st := { st with
            claims := st.claims.filter (fun c => !(claimKeyB env.gId week uid c)),
            sessions := st.sessions.filter (fun s => !(sessKeyB env.gId week uid s)) }
          contact_user_for_week env now st week uid (force_rank env st week uid) timeoutH
      | none =>
        contact_user_for_week env now st week uid (force_rank env st week uid) timeoutH

/-! ## the guild branch of `on_message` (Tracking.py:134-186) -/

/-- activity counting for one qualifying guild message, with the
exclusion rules and the per-user cooldown of `on_message`
(the `excludedChannelIds` list models the union of the two excluded
channel config lists the code reads). -/
def on_guild_message (env : Env) (nowDt : MDateTime) (now : Int) (st : St)
    (authorId channelId guildId : Nat) (authorIsBot : Bool) : St :=
  if authorIsBot then st
  else if !(guildId == env.cfg.allowedGuildId) then st   -- ensure_allowed_guild_id
  else if (match env.getMember authorId with
           | some m => env.hasExcludedRole m
           | none => false) then st
  else if env.cfg.excludedChannelIds.contains channelId then st
  else
    match findLast st guildId authorId with
    | some row =>
      if now - row.lastCountedTs < env.cfg.countCooldownSeconds then st
      else upsertLast (upsertActivity st guildId authorId (weekKey nowDt)) guildId authorId now
    | none =>
      upsertLast (upsertActivity st guildId authorId (weekKey nowDt)) guildId authorId now

/-! ## observations used by the theorems -/

/-- number of weekly-request contact messages delivered so far. -/
def sentCount (st : St) : Nat :=
  st.outbox.countP (fun m => match m with | Msg.requestDm _ _ => true | _ => false)

/-- number of recorded contact attempts for `(week, u)`. -/
def attemptCount (st : St) (week : Int) (u : Nat) : Nat :=
  st.contactAttempts.countP (fun e => e.1 == week && e.2 == u)

/-- the ActivityCount value stored for a key (0 when no row exists). -/
def getCount (st : St) (g u : Nat) (w : Int) : Nat :=
  match st.activity.find? (fun r => r.guild == g && r.user == u && r.week == w) with
  | some r => r.count
  | none => 0

/-- primary-key uniqueness of `weekly_claims` (guild_id, week_start, user_id). -/
def ClaimsPK (st : St) : Prop :=
  st.claims.Pairwise (fun a b => ¬(a.guild = b.guild ∧ a.week = b.week ∧ a.user = b.user))

/-- primary-key uniqueness of `weekly_sessions` (guild_id, week_start, user_id). -/
def SessionsPK (st : St) : Prop :=
  st.sessions.Pairwise (fun a b => ¬(a.guild = b.guild ∧ a.week = b.week ∧ a.user = b.user))

instance (st : St) : Decidable (ClaimsPK st) := by
  unfold ClaimsPK
  infer_instance

instance (st : St) : Decidable (SessionsPK st) := by
  unfold SessionsPK
  infer_instance

instance : DecidableEq (Except PyErr Unit) := fun a b =>
  match a, b with
  | Except.ok (), Except.ok () => isTrue rfl
  | Except.ok (), Except.error _ => isFalse (fun h => Except.noConfusion h)
  | Except.error _, Except.ok () => isFalse (fun h => Except.noConfusion h)
  | Except.error e, Except.error f =>
    match decEq e f with
    | isTrue h => isTrue (by rw [h])
    | isFalse h => isFalse (fun hh => h (by cases hh; rfl))

/-! ## concrete fixtures (one configured guild, members 10, 11, 12) -/

def exCfg : Cfg :=
  { allowedGuildId := 1, topLimit := 20, winnersToDm := 1, dmTimeoutHours := 48,
    countCooldownSeconds := 10, excludedRoleIds := [99], excludedChannelIds := [500],
    weeklyChannelConfigured := true }

/-- all direct messages deliverable. -/
def exEnv : Env :=
  { cfg := exCfg, guildPresent := true,
    members := [⟨10, [], false⟩, ⟨11, [], false⟩, ⟨12, [], false⟩],
    dmOk := fun _ => true }

/-- direct messages to user 10 closed, all others deliverable. -/
def exEnvClosed : Env :=
  { cfg := exCfg, guildPresent := true,
    members := [⟨10, [], false⟩, ⟨11, [], false⟩, ⟨12, [], false⟩],
    dmOk := fun u => !(u == 10) }

/-- empty database. -/
def exEmpty : St :=
  { activity := [], lastCounted := [], claims := [], sessions := [], runs := [],
    outbox := [], contactAttempts := [] }

/-- week 0: user 10 (5 msgs) and user 11 (3 msgs); user 10 was contacted,
the claim is pending and the decline-confirmation stage is active. -/
def exStConfirm : St :=
  { exEmpty with
    activity := [⟨1, 10, 0, 5⟩, ⟨1, 11, 0, 3⟩],
    claims := [⟨1, 0, 10, 1, Status.pending, 10⟩],
    sessions := [⟨1, 0, 10, Stage.confirmDecline, 100, true⟩] }

/-- week 0: users 10 and 12 both contacted and both sessions expired
(expiry 100 and 150, sweep time 200); user 11 is the next candidate. -/
def exStTwoExpired : St :=
  { exEmpty with
    activity := [⟨1, 10, 0, 5⟩, ⟨1, 12, 0, 4⟩, ⟨1, 11, 0, 3⟩],
    claims := [⟨1, 0, 10, 1, Status.pending, 10⟩, ⟨1, 0, 12, 2, Status.pending, 10⟩],
    sessions := [⟨1, 0, 10, Stage.awaitingRequest, 100, true⟩,
                 ⟨1, 0, 12, Stage.awaitingRequest, 150, true⟩] }

/-- week 0: the top candidate (user 20, 9 msgs) is not a guild member;
user 11 (3 msgs) is the only eligible candidate, so their eligible
1-based position is 1; user 10 declined earlier. -/
def exStGap : St :=
  { exEmpty with
    activity := [⟨1, 20, 0, 9⟩, ⟨1, 11, 0, 3⟩],
    claims := [⟨1, 0, 10, 1, Status.declined, 10⟩] }

/-- week 0: user 10 contacted, pending, session expires at 100. -/
def exStBoundary : St :=
  { exEmpty with
    activity := [⟨1, 10, 0, 5⟩],
    claims := [⟨1, 0, 10, 1, Status.pending, 10⟩],
    sessions := [⟨1, 0, 10, Stage.awaitingRequest, 100, true⟩] }

/-- a structured submission reply (contains "name", "creator", "id"). -/
def exSubmission : String := "Level Name: A Level ID: 2 Creator: B"

/-! ## toolkit lemmas -/

theorem find?_map_key_pres {α : Type} (f : α → α) (p : α → Bool)
    (hp : ∀ a, p (f a) = p a) (l : List α) :
    (l.map f).find? p = (l.find? p).map f := by
  induction l with
  | nil => rfl
  | cons a l ih =>
    by_cases h : p a = true
    · rw [List.map_cons, List.find?_cons_of_pos _ (by rw [hp]; exact h),
        List.find?_cons_of_pos _ h, Option.map_some']
    · rw [List.map_cons, List.find?_cons_of_neg _ (by rw [hp]; simpa using h),
        List.find?_cons_of_neg _ (by simpa using h), ih]

theorem claimKeyB_of_status_update (g' g : Nat) (w' w : Int) (u' u : Nat) (s : Status)
    (c : Claim) :
    claimKeyB g' w' u' (if claimKeyB g w u c then { c with status := s } else c) =
      claimKeyB g' w' u' c := by
  by_cases h : claimKeyB g w u c = true
  · rw [if_pos h]
    rfl
  · rw [if_neg h]

/-- SQL `UPDATE weekly_claims SET status` commutes with any key lookup. -/
theorem findClaim_setClaimStatus (st : St) (g : Nat) (w : Int) (u : Nat) (s : Status)
    (g' : Nat) (w' : Int) (u' : Nat) :
    findClaim (setClaimStatus st g w u s) g' w' u' =
      (findClaim st g' w' u').map
        (fun c => if claimKeyB g w u c then { c with status := s } else c) :=
  find?_map_key_pres _ _ (fun c => claimKeyB_of_status_update g' g w' w u' u s c) st.claims

theorem findClaim_setClaimStatus_self (st : St) (g : Nat) (w : Int) (u : Nat) (s : Status) :
    findClaim (setClaimStatus st g w u s) g w u =
      (findClaim st g w u).map (fun c => { c with status := s }) := by
  rw [findClaim_setClaimStatus]
  cases h : findClaim st g w u with
  | none => rfl
  | some c =>
    have hc : claimKeyB g w u c = true := List.find?_some h
    simp [hc]

theorem findClaim_setClaimStatus_ne (st : St) (g : Nat) (w : Int) (u : Nat) (s : Status)
    (g' : Nat) (w' : Int) (u' : Nat) (hne : ¬(g' = g ∧ w' = w ∧ u' = u)) :
    findClaim (setClaimStatus st g w u s) g' w' u' = findClaim st g' w' u' := by
  rw [findClaim_setClaimStatus]
  cases h : findClaim st g' w' u' with
  | none => rfl
  | some c =>
    have hc : claimKeyB g' w' u' c = true := List.find?_some h
    have hc' : claimKeyB g w u c = false := by
      rcases Bool.eq_false_or_eq_true (claimKeyB g w u c) with h1 | h0
      · exfalso
        apply hne
        simp only [claimKeyB, Bool.and_eq_true, beq_iff_eq] at hc h1
        exact ⟨hc.1.1.symm.trans h1.1.1, hc.1.2.symm.trans h1.1.2, hc.2.symm.trans h1.2⟩
      · exact h0
    simp [hc']

theorem sessKeyB_of_update (g' g : Nat) (w' w : Int) (u' u : Nat) (φ : Session → Session)
    (hφ : ∀ s, (φ s).guild = s.guild ∧ (φ s).week = s.week ∧ (φ s).user = s.user)
    (s : Session) :
    sessKeyB g' w' u' (if sessKeyB g w u s then φ s else s) = sessKeyB g' w' u' s := by
  by_cases h : sessKeyB g w u s = true
  · rw [if_pos h]
    unfold sessKeyB
    rw [(hφ s).1, (hφ s).2.1, (hφ s).2.2]
  · rw [if_neg h]

theorem findSession_deactivate (st : St) (g : Nat) (w : Int) (u : Nat)
    (g' : Nat) (w' : Int) (u' : Nat) :
    findSession (deactivateSession st g w u) g' w' u' =
      (findSession st g' w' u').map
        (fun s => if sessKeyB g w u s then { s with active := false } else s) :=
  find?_map_key_pres (fun s => if sessKeyB g w u s then { s with active := false } else s)
    (sessKeyB g' w' u')
    (fun s => sessKeyB_of_update g' g w' w u' u (fun s => { s with active := false })
      (fun _ => ⟨rfl, rfl, rfl⟩) s) st.sessions

theorem findSession_deactivate_self (st : St) (g : Nat) (w : Int) (u : Nat) :
    findSession (deactivateSession st g w u) g w u =
      (findSession st g w u).map (fun s => { s with active := false }) := by
  rw [findSession_deactivate]
  cases h : findSession st g w u with
  | none => rfl
  | some s =>
    have hs : sessKeyB g w u s = true := List.find?_some h
    simp [hs]

theorem findSession_setStage (st : St) (g : Nat) (w : Int) (u : Nat) (stg : Stage)
    (g' : Nat) (w' : Int) (u' : Nat) :
    findSession (setSessionStage st g w u stg) g' w' u' =
      (findSession st g' w' u').map
        (fun s => if sessKeyB g w u s then { s with stage := stg } else s) :=
  find?_map_key_pres (fun s => if sessKeyB g w u s then { s with stage := stg } else s)
    (sessKeyB g' w' u')
    (fun s => sessKeyB_of_update g' g w' w u' u (fun s => { s with stage := stg })
      (fun _ => ⟨rfl, rfl, rfl⟩) s) st.sessions

theorem findSession_setStage_self (st : St) (g : Nat) (w : Int) (u : Nat) (stg : Stage) :
    findSession (setSessionStage st g w u stg) g w u =
      (findSession st g w u).map (fun s => { s with stage := stg }) := by
  rw [findSession_setStage]
  cases h : findSession st g w u with
  | none => rfl
  | some s =>
    have hs : sessKeyB g w u s = true := List.find?_some h
    simp [hs]

/-- plain insert: lookups with a different key are unaffected. -/
theorem findClaim_insert_ne (st : St) (c : Claim) (g : Nat) (w : Int) (u : Nat)
    (h : claimKeyB g w u c = false) :
    findClaim (insertClaim st c) g w u = findClaim st g w u := by
  unfold findClaim insertClaim
  rw [List.find?_append]
  have : [c].find? (claimKeyB g w u) = none := by simp [List.find?, h]
  rw [this]
  cases st.claims.find? (claimKeyB g w u) <;> rfl

/-- plain insert into a key-free table: lookup finds the new row. -/
theorem findClaim_insert_self (st : St) (c : Claim) (g : Nat) (w : Int) (u : Nat)
    (h0 : findClaim st g w u = none) (hk : claimKeyB g w u c = true) :
    findClaim (insertClaim st c) g w u = some c := by
  unfold findClaim insertClaim
  rw [List.find?_append]
  unfold findClaim at h0
  rw [h0]
  simp [List.find?, hk]

/-- the fold used for the `ORDER BY week_start DESC LIMIT 1` lookups picks
an element of the list (or returns its accumulator). -/
theorem pickLatest_mem (l : List Session) : ∀ (acc : Option Session) (x : Session),
    l.foldl (fun acc s => match acc with
      | none => some s
      | some a => if s.week > a.week then some s else acc) acc = some x →
    x ∈ l ∨ acc = some x := by
  induction l with
  | nil => exact fun acc x h => Or.inr h
  | cons s l ih =>
    intro acc x h
    rcases ih _ x h with hm | hacc
    · exact Or.inl (List.mem_cons_of_mem _ hm)
    · match acc with
      | none =>
        have h' : some s = some x := hacc
        injection h' with hsx
        exact Or.inl (hsx ▸ List.mem_cons_self s l)
      | some a =>
        have h' : (if s.week > a.week then some s else some a) = some x := hacc
        by_cases hw : s.week > a.week
        · rw [if_pos hw] at h'
          injection h' with hsx
          exact Or.inl (hsx ▸ List.mem_cons_self s l)
        · rw [if_neg hw] at h'
          exact Or.inr h'

theorem latestActiveSession_mem (st : St) (g u : Nat) (sess : Session)
    (h : latestActiveSession st g u = some sess) :
    sess ∈ st.sessions ∧ sess.guild = g ∧ sess.user = u ∧ sess.active = true := by
  unfold latestActiveSession at h
  rcases pickLatest_mem _ none sess h with hm | hacc
  · have h2 := List.mem_filter.1 hm
    refine ⟨h2.1, ?_⟩
    have := h2.2
    simp only [Bool.and_eq_true, beq_iff_eq] at this
    exact ⟨this.1.1, this.1.2, this.2⟩
  · exact absurd hacc (by simp)

theorem findSession_of_latestActive (st : St) (g u : Nat) (sess : Session)
    (hpk : SessionsPK st) (h : latestActiveSession st g u = some sess) :
    findSession st g sess.week u = some sess := by
  obtain ⟨hmem, hg, hu, _⟩ := latestActiveSession_mem st g u sess h
  have hkey : sessKeyB g sess.week u sess = true := by simp [sessKeyB, hg, hu]
  cases hfind : findSession st g sess.week u with
  | none =>
    exfalso
    unfold findSession at hfind
    exact (List.find?_eq_none.1 hfind sess hmem) hkey
  | some r =>
    unfold findSession at hfind
    have hrmem : r ∈ st.sessions := List.mem_of_find?_eq_some hfind
    have hrkey : sessKeyB g sess.week u r = true := List.find?_some hfind
    by_cases hr : r = sess
    · rw [hr]
    · exfalso
      have hsym : Symmetric (fun a b : Session =>
          ¬(a.guild = b.guild ∧ a.week = b.week ∧ a.user = b.user)) := by
        intro a b hab hk
        exact hab ⟨hk.1.symm, hk.2.1.symm, hk.2.2.symm⟩
      have hR := List.Pairwise.forall hsym hpk hrmem hmem hr
      apply hR
      simp only [sessKeyB, Bool.and_eq_true, beq_iff_eq] at hrkey
      exact ⟨hrkey.1.1.trans hg.symm, hrkey.1.2, hrkey.2.trans hu.symm⟩

/-! ## C1: confirmed decline — declined + deactivated, but the cascade
raises before contacting anybody -/

/-- C1 (code_bug evidence).  Pressing "Yes" on the decline
confirmation marks the claim `declined` and deactivates the session, but
`_contact_next_eligible` raises `NameError` (unbound `winners_to_dm` in
the log f-string at Tracking.py:591), so the next eligible candidate
(user 11) is never contacted: no claim row, no contact attempt.  The
"No" branch correctly reverts the session to `awaiting_request` and
leaves the claim untouched. -/
theorem decline_confirm_yes_cascade_crashes :
    (handle_decline_confirm exEnv 60 exStConfirm 10 true).2 =
        Except.error PyErr.nameErrorWinnersToDm ∧
    findClaim (handle_decline_confirm exEnv 60 exStConfirm 10 true).1 1 0 10 =
        some ⟨1, 0, 10, 1, Status.declined, 10⟩ ∧
    findSession (handle_decline_confirm exEnv 60 exStConfirm 10 true).1 1 0 10 =
        some ⟨1, 0, 10, Stage.confirmDecline, 100, false⟩ ∧
    findClaim (handle_decline_confirm exEnv 60 exStConfirm 10 true).1 1 0 11 = none ∧
    (handle_decline_confirm exEnv 60 exStConfirm 10 true).1.contactAttempts = [] ∧
    (handle_decline_confirm exEnv 60 exStConfirm 10 false).1 =
        setSessionStage exStConfirm 1 0 10 Stage.awaitingRequest ∧
    (handle_decline_confirm exEnv 60 exStConfirm 10 false).1.claims = exStConfirm.claims := by
  decide

/-! ## C2: timeout sweep — marks timed_out but the cascade raises,
aborting both the cascade and the rest of the sweep's batch -/

/-- C2 (code_bug evidence).  At sweep time 200 both sessions
(expiry 100 and 150) satisfy `expires_ts <= now`.  The sweep delivers
the timeout notice to user 10, marks user 10's claim `timed_out` and
deactivates the session — but the cascade raises `NameError`
(Tracking.py:591), so the next eligible candidate (user 11) is never
contacted and the second expired session (user 12) is not even processed
in this sweep. -/
theorem timeout_sweep_cascade_crashes :
    (process_timeouts exEnv 200 exStTwoExpired).2 =
        Except.error PyErr.nameErrorWinnersToDm ∧
    (process_timeouts exEnv 200 exStTwoExpired).1.outbox = [Msg.timeoutNotice 10] ∧
    findClaim (process_timeouts exEnv 200 exStTwoExpired).1 1 0 10 =
        some ⟨1, 0, 10, 1, Status.timedOut, 10⟩ ∧
    findSession (process_timeouts exEnv 200 exStTwoExpired).1 1 0 10 =
        some ⟨1, 0, 10, Stage.awaitingRequest, 100, false⟩ ∧
    findClaim (process_timeouts exEnv 200 exStTwoExpired).1 1 0 12 =
        some ⟨1, 0, 12, 2, Status.pending, 10⟩ ∧
    findSession (process_timeouts exEnv 200 exStTwoExpired).1 1 0 12 =
        some ⟨1, 0, 12, Stage.awaitingRequest, 150, true⟩ ∧
    findClaim (process_timeouts exEnv 200 exStTwoExpired).1 1 0 11 = none ∧
    (process_timeouts exEnv 200 exStTwoExpired).1.contactAttempts = [] := by
  decide

/-! ## C3: cascade ranks -/

/-- C3 (code_bug evidence).  On `exStGap` the cascade should contact
user 11 with rank 1 (their 1-based position among eligible candidates:
user 20 is not a member).  Instead `_contact_next_eligible` raises
`NameError` and records nothing; and the scan that follows the raising
line (transcribed as `contactNextEligibleScan`) would have recorded rank
2 — the enumeration index counts the skipped ineligible row — not the
eligible position 1. -/
theorem cascade_rank_never_recorded :
    contact_next_eligible exEnv 1000 exStGap 0 =
        (exStGap, Except.error PyErr.nameErrorWinnersToDm) ∧
    findClaim exStGap 1 0 11 = none ∧
    (findClaim (contactNextEligibleScan exEnv 1000 48 0
        (enumFrom 1 (topRows exStGap 1 0 20)) exStGap) 1 0 11).map Claim.rank =
      some 2 := by
  decide

/-! ## C10: behaviour at the exact expiry instant -/

/-- C10 counterexample.  The claim asserts the timeout sweep expires
*every* active session whose `expires_ts` is ≤ now.  On `exStTwoExpired`
(sessions of users 10 and 12 both expired at sweep time 200) the sweep
leaves user 12's claim `pending` and their session active: the
`NameError` raised inside the cascade for user 10 aborts the rest of the
batch. -/
theorem sweep_misses_second_expired_session :
    findClaim (process_timeouts exEnv 200 exStTwoExpired).1 1 0 12 =
        some ⟨1, 0, 12, 2, Status.pending, 10⟩ ∧
    findSession (process_timeouts exEnv 200 exStTwoExpired).1 1 0 12 =
        some ⟨1, 0, 12, Stage.awaitingRequest, 150, true⟩ := by
  decide

/-- C10 (amended).  At the exact expiry instant both handlers apply:
with `expires_ts = 100`, the private-message handler still processes a
valid submission at time 100 (claim becomes `claimed`) and ignores it at
time 101; a sweep at time 100 expires the session (claim becomes
`timed_out`).  Running both at time 100, the final status is whichever
ran first: handler-then-sweep ends `claimed`, sweep-then-handler ends
`timed_out` (the sweep expires the first selected session; later
selected sessions are left to a later sweep because the cascade raises). -/
theorem expiry_instant_race :
    (findClaim (handle_dm exEnv 100 exStBoundary 10 exSubmission) 1 0 10).map Claim.status =
        some Status.claimed ∧
    handle_dm exEnv 101 exStBoundary 10 exSubmission = exStBoundary ∧
    (findClaim (process_timeouts exEnv 100 exStBoundary).1 1 0 10).map Claim.status =
        some Status.timedOut ∧
    (findClaim (process_timeouts exEnv 100
          (handle_dm exEnv 100 exStBoundary 10 exSubmission)).1 1 0 10).map Claim.status =
        some Status.claimed ∧
    (findClaim (handle_dm exEnv 100 (process_timeouts exEnv 100 exStBoundary).1
          10 exSubmission) 1 0 10).map Claim.status =
        some Status.timedOut := by
  decide

/-! ## C7: private-reply dispatch in stage awaiting_request -/

/-- C7 counterexample.  The claim says a reply equal to
"I do not want this request" moves the session to `confirm_decline`.
In `_handle_dm` the stage update sits *after* the confirmation-prompt
send inside one `try`; when that send fails (user 10's DMs closed in
`exEnvClosed`), the session stays in `awaiting_request` and nothing at
all changes. -/
theorem decline_prompt_failure_keeps_stage :
    handle_dm exEnvClosed 50 exStBoundary 10 "I do not want this request" = exStBoundary ∧
    (latestActiveSession exStBoundary 1 10).map Session.stage =
      some Stage.awaitingRequest ∧
    isDeclinePhrase ("I do not want this request") = true := by
  decide

/-- C7 (amended).  For a private reply dispatched against the user's
active `awaiting_request` session (member present, not expired):
a decline-phrase reply moves the session to `confirm_decline` and leaves
all claims unchanged *provided the confirmation prompt is delivered*,
and changes nothing when that send fails; a reply containing "name",
"creator" and "id" marks the claim `claimed`, deactivates the session,
and attempts the channel report and the thank-you acknowledgment
(delivered when possible); any other reply leaves claims and sessions
untouched (only a format reminder is attempted). -/
theorem dm_reply_dispatch (env : Env) (now : Int) (st : St) (u : Nat) (content : String)
    (m : Member) (sess : Session)
    (hg : env.guildPresent = true)
    (hm : env.getMember u = some m)
    (hs : latestActiveSession st env.gId u = some sess)
    (hstage : sess.stage = Stage.awaitingRequest)
    (hnow : now ≤ sess.expiresTs)
    (hpk : SessionsPK st) :
    (isDeclinePhrase content = true →
      (env.dmOk u = true →
        (handle_dm env now st u content).claims = st.claims ∧
        findSession (handle_dm env now st u content) env.gId sess.week u =
          some { sess with stage := Stage.confirmDecline }) ∧
      (env.dmOk u = false → handle_dm env now st u content = st)) ∧
    (isDeclinePhrase content = false → isValidSubmission content = true →
      findClaim (handle_dm env now st u content) env.gId sess.week u =
        (findClaim st env.gId sess.week u).map
          (fun c => { c with status := Status.claimed }) ∧
      findSession (handle_dm env now st u content) env.gId sess.week u =
        some { sess with active := false } ∧
      (env.cfg.weeklyChannelConfigured = true →
        Msg.report u sess.week (pyStrip content) ∈ (handle_dm env now st u content).outbox) ∧
      (env.dmOk u = true → Msg.ack u ∈ (handle_dm env now st u content).outbox)) ∧
    (isDeclinePhrase content = false → isValidSubmission content = false →
      (handle_dm env now st u content).claims = st.claims ∧
      (handle_dm env now st u content).sessions = st.sessions) := by
  have hfind : findSession st env.gId sess.week u = some sess :=
    findSession_of_latestActive st env.gId u sess hpk hs
  have hnotexp : ¬(now > sess.expiresTs) := by omega
  refine ⟨fun hd => ⟨fun ho => ?_, fun ho => ?_⟩,
    fun hd hv => ?_, fun hd hv => ?_⟩
  · -- decline phrase, prompt delivered
    have hpost : handle_dm env now st u content =
        setSessionStage (pushMsg st (Msg.confirmPrompt u)) env.gId sess.week u
          Stage.confirmDecline := by
      simp [handle_dm, hg, hm, hs, hnotexp, hd, ho]
    refine hpost ▸ ⟨rfl, ?_⟩
    rw [findSession_setStage_self]
    have : findSession (pushMsg st (Msg.confirmPrompt u)) env.gId sess.week u =
        findSession st env.gId sess.week u := rfl
    rw [this, hfind]
    rfl
  · -- decline phrase, prompt not deliverable
    simp [handle_dm, hg, hm, hs, hnotexp, hd, ho]
  · -- valid structured submission
    have hpost : handle_dm env now st u content =
        record_request env st u sess.week (pyStrip content) := by
      simp [handle_dm, hg, hm, hs, hnotexp, hd, hv, hstage]
    rw [hpost]
    unfold record_request
    set st1 := if env.cfg.weeklyChannelConfigured then
        pushMsg st (Msg.report u sess.week (pyStrip content)) else st with hst1
    have hclaims1 : st1.claims = st.claims := by
      rw [hst1]; by_cases hwc : env.cfg.weeklyChannelConfigured <;> simp [hwc, pushMsg]
    have hsess1 : findSession st1 env.gId sess.week u = some sess := by
      rw [hst1]; by_cases hwc : env.cfg.weeklyChannelConfigured <;>
        simp [hwc, pushMsg, findSession] <;> exact hfind
    have hfc1 : findClaim st1 env.gId sess.week u = findClaim st env.gId sess.week u := by
      rw [hst1]; by_cases hwc : env.cfg.weeklyChannelConfigured <;> simp [hwc, pushMsg, findClaim]
    set st2 := setClaimStatus st1 env.gId sess.week u Status.claimed with hst2
    set st3 := deactivateSession st2 env.gId sess.week u with hst3
    refine ⟨?_, ?_, ?_, ?_⟩
    · -- claim becomes claimed
      have e1 : findClaim (if env.dmOk u then pushMsg st3 (Msg.ack u) else st3)
          env.gId sess.week u = findClaim st3 env.gId sess.week u := by
        by_cases ho : env.dmOk u <;> simp [ho, pushMsg, findClaim]
      have e2 : findClaim st3 env.gId sess.week u = findClaim st2 env.gId sess.week u := rfl
      rw [e1, e2, hst2, findClaim_setClaimStatus_self, hfc1]
    · -- session deactivated
      have e1 : findSession (if env.dmOk u then pushMsg st3 (Msg.ack u) else st3)
          env.gId sess.week u = findSession st3 env.gId sess.week u := by
        by_cases ho : env.dmOk u <;> simp [ho, pushMsg, findSession]
      have e2 : findSession st2 env.gId sess.week u = findSession st1 env.gId sess.week u := by
        rw [hst2]; rfl
      rw [e1, hst3, findSession_deactivate_self, e2, hsess1]
      rfl
    · -- channel report delivered when configured
      intro hwc
      by_cases ho : env.dmOk u <;>
        simp [ho, hwc, pushMsg, hst3, hst2, hst1, deactivateSession, setClaimStatus]
    · -- acknowledgment delivered when possible
      intro ho
      simp [ho, pushMsg]
  · -- neither branch: nothing recorded
    by_cases ho : env.dmOk u <;>
      simp [handle_dm, hg, hm, hs, hnotexp, hd, hv, hstage, ho, pushMsg]

/-- C7 witness: the amended dispatch theorem applied to the concrete
decline reply of `exStBoundary`. -/
theorem dm_reply_dispatch_witness :
    (handle_dm exEnv 50 exStBoundary 10 "I do not want this request").claims =
      exStBoundary.claims :=
  (((dm_reply_dispatch exEnv 50 exStBoundary 10 "I do not want this request"
      ⟨10, [], false⟩ ⟨1, 0, 10, Stage.awaitingRequest, 100, true⟩
      (by decide) (by decide) (by decide) (by decide) (by decide) (by decide)).1
    (by decide)).1 (by decide)).1

/-! ## C6: activity counting with the per-user cooldown -/

theorem upsertLast_activity (st : St) (g u : Nat) (ts : Int) :
    (upsertLast st g u ts).activity = st.activity := by
  unfold upsertLast
  by_cases h : st.lastCounted.any (fun r => r.guild == g && r.user == u) = true
  · rw [if_pos h]
  · rw [if_neg h]

theorem getCount_upsertActivity (st : St) (g u : Nat) (w : Int) :
    getCount (upsertActivity st g u w) g u w = getCount st g u w + 1 := by
  unfold getCount upsertActivity
  by_cases h : st.activity.any (fun r => r.guild == g && r.user == u && r.week == w) = true
  · rw [if_pos h]
    dsimp only
    have hpres : ∀ r : ActivityRow,
        (fun r : ActivityRow => r.guild == g && r.user == u && r.week == w)
          (if r.guild == g && r.user == u && r.week == w then { r with count := r.count + 1 }
           else r) =
        (r.guild == g && r.user == u && r.week == w) := by
      intro r
      by_cases hr : (r.guild == g && r.user == u && r.week == w) = true
      · rw [if_pos hr]
      · rw [if_neg hr]
    rw [find?_map_key_pres _ _ hpres]
    rcases List.any_eq_true.1 h with ⟨r, hmem, hr⟩
    cases hfind : st.activity.find? (fun r => r.guild == g && r.user == u && r.week == w) with
    | none => exact absurd ((List.find?_eq_none.1 hfind) r hmem) (by simp [hr])
    | some r' =>
      obtain ⟨⟨h1, h2⟩, h3⟩ :
          (r'.guild = g ∧ r'.user = u) ∧ r'.week = w := by
        simpa using List.find?_some hfind
      simp [h1, h2, h3]
  · rw [if_neg h]
    dsimp only
    have hnone : st.activity.find? (fun r => r.guild == g && r.user == u && r.week == w) =
        none := by
      refine List.find?_eq_none.2 (fun x hx hpx => ?_)
      exact absurd (List.any_eq_true.2 ⟨x, hx, hpx⟩) h
    rw [List.find?_append, hnone]
    simp [List.find?]

theorem findLast_upsertLast_ts (st : St) (g u : Nat) (ts : Int) :
    (findLast (upsertLast st g u ts) g u).map LastRow.lastCountedTs = some ts := by
  unfold findLast upsertLast
  by_cases h : st.lastCounted.any (fun r => r.guild == g && r.user == u) = true
  · rw [if_pos h]
    dsimp only
    have hpres : ∀ r : LastRow,
        (fun r : LastRow => r.guild == g && r.user == u)
          (if r.guild == g && r.user == u then { r with lastCountedTs := ts } else r) =
        (r.guild == g && r.user == u) := by
      intro r
      by_cases hr : (r.guild == g && r.user == u) = true
      · rw [if_pos hr]
      · rw [if_neg hr]
    rw [find?_map_key_pres _ _ hpres]
    rcases List.any_eq_true.1 h with ⟨r, hmem, hr⟩
    cases hfind : st.lastCounted.find? (fun r => r.guild == g && r.user == u) with
    | none => exact absurd ((List.find?_eq_none.1 hfind) r hmem) (by simp [hr])
    | some r' =>
      obtain ⟨h1, h2⟩ : r'.guild = g ∧ r'.user = u := by
        simpa using List.find?_some hfind
      simp [h1, h2]
  · rw [if_neg h]
    dsimp only
    have hnone : st.lastCounted.find? (fun r => r.guild == g && r.user == u) = none := by
      refine List.find?_eq_none.2 (fun x hx hpx => ?_)
      exact absurd (List.any_eq_true.2 ⟨x, hx, hpx⟩) h
    rw [List.find?_append, hnone]
    simp [List.find?]

/-- C6.  For a qualifying guild message (author not a bot, configured
guild, no excluded role, channel not excluded): if the author's last
counted message is less than `count_cooldown_seconds` old, the message
changes nothing at all; otherwise it increments the author's
ActivityCount for the current week by exactly 1 and overwrites
LastCounted with the current time. -/
theorem activity_count_cooldown (env : Env) (nowDt : MDateTime) (now : Int) (st : St)
    (u ch : Nat)
    (hrole : (match env.getMember u with
              | some m => env.hasExcludedRole m
              | none => false) = false)
    (hch : env.cfg.excludedChannelIds.contains ch = false) :
    (∀ row, findLast st env.cfg.allowedGuildId u = some row →
      now - row.lastCountedTs < env.cfg.countCooldownSeconds →
      on_guild_message env nowDt now st u ch env.cfg.allowedGuildId false = st) ∧
    ((findLast st env.cfg.allowedGuildId u = none ∨
      (∃ row, findLast st env.cfg.allowedGuildId u = some row ∧
        env.cfg.countCooldownSeconds ≤ now - row.lastCountedTs)) →
      getCount (on_guild_message env nowDt now st u ch env.cfg.allowedGuildId false)
          env.cfg.allowedGuildId u (weekKey nowDt) =
        getCount st env.cfg.allowedGuildId u (weekKey nowDt) + 1 ∧
      (findLast (on_guild_message env nowDt now st u ch env.cfg.allowedGuildId false)
          env.cfg.allowedGuildId u).map LastRow.lastCountedTs = some now) := by
  constructor
  · intro row hrow hlt
    simp [on_guild_message, hrole, hch, hrow, hlt]
  · intro hfree
    have hch' : ¬(ch ∈ env.cfg.excludedChannelIds) := by simpa using hch
    have hpost : on_guild_message env nowDt now st u ch env.cfg.allowedGuildId false =
        upsertLast (upsertActivity st env.cfg.allowedGuildId u (weekKey nowDt))
          env.cfg.allowedGuildId u now := by
      rcases hfree with hnone | ⟨row, hrow, hge⟩
      · simp [on_guild_message, hrole, hch', hnone]
      · have hnlt : ¬(now - row.lastCountedTs < env.cfg.countCooldownSeconds) := by omega
        simp [on_guild_message, hrole, hch', hrow, hnlt]
    rw [hpost]
    constructor
    · have e1 : getCount (upsertLast (upsertActivity st env.cfg.allowedGuildId u
          (weekKey nowDt)) env.cfg.allowedGuildId u now) env.cfg.allowedGuildId u
          (weekKey nowDt) =
          getCount (upsertActivity st env.cfg.allowedGuildId u (weekKey nowDt))
            env.cfg.allowedGuildId u (weekKey nowDt) := by
        unfold getCount
        rw [upsertLast_activity]
      rw [e1, getCount_upsertActivity]
    · exact findLast_upsertLast_ts _ _ _ _

/-- C6 witness: a first qualifying message (no LastCounted row) creates
the week's count with value 1 and stamps LastCounted. -/
theorem activity_count_cooldown_witness :
    getCount (on_guild_message exEnv ⟨13, 5000⟩ 1000 exEmpty 10 7
        exEnv.cfg.allowedGuildId false) exEnv.cfg.allowedGuildId 10 (weekKey ⟨13, 5000⟩) =
      getCount exEmpty exEnv.cfg.allowedGuildId 10 (weekKey ⟨13, 5000⟩) + 1 :=
  ((activity_count_cooldown exEnv ⟨13, 5000⟩ 1000 exEmpty 10 7
    (by decide) (by decide)).2 (Or.inl (by decide))).1

/-! ## C9: admin force-contact round trip -/

theorem upsertSession_claims (st : St) (g : Nat) (w : Int) (u : Nat) (e : Int) :
    (upsertSession st g w u e).claims = st.claims := by
  unfold upsertSession
  by_cases h : st.sessions.any (sessKeyB g w u) = true
  · rw [if_pos h]
  · rw [if_neg h]

theorem upsertSession_contactAttempts (st : St) (g : Nat) (w : Int) (u : Nat) (e : Int) :
    (upsertSession st g w u e).contactAttempts = st.contactAttempts := by
  unfold upsertSession
  by_cases h : st.sessions.any (sessKeyB g w u) = true
  · rw [if_pos h]
  · rw [if_neg h]

theorem upsertSession_outbox (st : St) (g : Nat) (w : Int) (u : Nat) (e : Int) :
    (upsertSession st g w u e).outbox = st.outbox := by
  unfold upsertSession
  by_cases h : st.sessions.any (sessKeyB g w u) = true
  · rw [if_pos h]
  · rw [if_neg h]

theorem upsertSession_activity (st : St) (g : Nat) (w : Int) (u : Nat) (e : Int) :
    (upsertSession st g w u e).activity = st.activity := by
  unfold upsertSession
  by_cases h : st.sessions.any (sessKeyB g w u) = true
  · rw [if_pos h]
  · rw [if_neg h]

theorem upsertSession_runs (st : St) (g : Nat) (w : Int) (u : Nat) (e : Int) :
    (upsertSession st g w u e).runs = st.runs := by
  unfold upsertSession
  by_cases h : st.sessions.any (sessKeyB g w u) = true
  · rw [if_pos h]
  · rw [if_neg h]

/-- characterization of one contact attempt: an existing claim row skips
everything. -/
theorem contact_user_for_week_skip (env : Env) (now : Int) (st : St) (week : Int)
    (uid rank tH : Nat) (c : Claim) (h : findClaim st env.gId week uid = some c) :
    contact_user_for_week env now st week uid rank tH = (st, false) := by
  unfold contact_user_for_week
  rw [h]

/-- characterization of one contact attempt with deliverable DMs and no
existing row: attempt recorded, request delivered, pending claim
inserted, session upserted. -/
theorem contact_user_for_week_dmOk (env : Env) (now : Int) (st : St) (week : Int)
    (uid rank tH : Nat) (hfree : findClaim st env.gId week uid = none)
    (ho : env.dmOk uid = true) :
    contact_user_for_week env now st week uid rank tH =
      (upsertSession
        { st with
          contactAttempts := st.contactAttempts ++ [(week, uid)],
          outbox := st.outbox ++ [Msg.requestDm uid
            (build_request_dm_text tH (now + (tH : Int) * 3600))],
          claims := st.claims ++
            [⟨env.gId, week, uid, rank, Status.pending, now⟩] }
        env.gId week uid (now + (tH : Int) * 3600), true) := by
  unfold contact_user_for_week
  rw [hfree]
  dsimp only
  rw [if_pos ho]
  rfl

/-- characterization of one contact attempt with closed DMs and no
existing row: attempt recorded, dm_closed claim inserted, no session,
nothing delivered. -/
theorem contact_user_for_week_dmClosed (env : Env) (now : Int) (st : St) (week : Int)
    (uid rank tH : Nat) (hfree : findClaim st env.gId week uid = none)
    (ho : env.dmOk uid = false) :
    contact_user_for_week env now st week uid rank tH =
      ({ st with
         contactAttempts := st.contactAttempts ++ [(week, uid)],
         claims := st.claims ++
           [⟨env.gId, week, uid, rank, Status.dmClosed, now⟩] }, false) := by
  unfold contact_user_for_week
  rw [hfree]
  dsimp only
  rw [if_neg (by rw [ho]; exact Bool.false_ne_true)]
  rfl

/-- C9.  With the target a present, non-bot, non-excluded member
holding an existing claim: any status other than `dm_closed` refuses the
force-contact and changes nothing; a `dm_closed` claim is deleted
together with its session, and exactly one fresh contact attempt is
performed whose recorded rank is freshly recomputed from the current
activity table (`force_rank`), leaving exactly one claim row for the key
(pending on delivery, dm_closed again on failure) and a session only on
delivery. -/
theorem force_dm_round_trip (env : Env) (now : Int) (st : St) (week : Int) (uid : Nat)
    (tH? : Option Nat) (m : Member) (cl : Claim)
    (hm : env.getMember uid = some m)
    (hbot : m.isBot = false)
    (hrole : env.hasExcludedRole m = false)
    (hcl : findClaim st env.gId week uid = some cl) :
    (cl.status ≠ Status.dmClosed →
      force_dm_for_user env now st week uid tH? = (st, false)) ∧
    (cl.status = Status.dmClosed →
      (force_dm_for_user env now st week uid tH?).1.contactAttempts =
        st.contactAttempts ++ [(week, uid)] ∧
      (force_dm_for_user env now st week uid tH?).1.claims.filter
          (claimKeyB env.gId week uid) =
        [{ guild := env.gId, week := week, user := uid,
           rank := force_rank env st week uid,
           status := if env.dmOk uid then Status.pending else Status.dmClosed,
           contactedTs := now }] ∧
      (force_dm_for_user env now st week uid tH?).1.sessions.filter
          (sessKeyB env.gId week uid) =
        (if env.dmOk uid then
          [{ guild := env.gId, week := week, user := uid, stage := Stage.awaitingRequest,
             expiresTs := now + ((match tH? with
               | some t => if t = 0 then env.cfg.dmTimeoutHours else t
               | none => env.cfg.dmTimeoutHours : Nat) : Int) * 3600, active := true }]
         else [])) := by
  constructor
  · intro hne
    simp [force_dm_for_user, hm, hbot, hrole, hcl, hne]
  · intro hdc
    have hpost : force_dm_for_user env now st week uid tH? =
        contact_user_for_week env now
          { st with
            claims := st.claims.filter (fun c => !(claimKeyB env.gId week uid c)),
            sessions := st.sessions.filter (fun s => !(sessKeyB env.gId week uid s)) }
          week uid
          (force_rank env
            { st with
              claims := st.claims.filter (fun c => !(claimKeyB env.gId week uid c)),
              sessions := st.sessions.filter (fun s => !(sessKeyB env.gId week uid s)) }
            week uid)
          (match tH? with
            | some t => if t = 0 then env.cfg.dmTimeoutHours else t
            | none => env.cfg.dmTimeoutHours) := by
      simp [force_dm_for_user, hm, hbot, hrole, hcl, hdc]
    set cleared : St :=
      { st with
        claims := st.claims.filter (fun c => !(claimKeyB env.gId week uid c)),
        sessions := st.sessions.filter (fun s => !(sessKeyB env.gId week uid s)) }
      with hcleared
    have hfree : findClaim cleared env.gId week uid = none := by
      refine List.find?_eq_none.2 (fun c hcmem hkey => ?_)
      have := (List.mem_filter.1 hcmem).2
      rw [hkey] at this
      exact absurd this (by decide)
    have hrank : force_rank env cleared week uid = force_rank env st week uid := rfl
    have hsessfree : ∀ s ∈ cleared.sessions, ¬ sessKeyB env.gId week uid s = true := by
      intro s hsmem hkey
      have := (List.mem_filter.1 hsmem).2
      rw [hkey] at this
      exact absurd this (by decide)
    have hkeynew : claimKeyB env.gId week uid
        { guild := env.gId, week := week, user := uid,
          rank := force_rank env st week uid,
          status := if env.dmOk uid then Status.pending else Status.dmClosed,
          contactedTs := now } = true := by
      simp [claimKeyB]
    have hclearedclaims : cleared.claims.filter (claimKeyB env.gId week uid) = [] := by
      refine List.filter_eq_nil_iff.2 (fun c hcmem => ?_)
      intro hkey
      have := (List.mem_filter.1 hcmem).2
      rw [hkey] at this
      exact absurd this (by decide)
    have hany : ¬ cleared.sessions.any (sessKeyB env.gId week uid) = true := by
      intro hany
      rcases List.any_eq_true.1 hany with ⟨s, hsmem, hkey⟩
      exact hsessfree s hsmem hkey
    by_cases ho : env.dmOk uid = true
    · rw [hpost, hrank, contact_user_for_week_dmOk env now cleared week uid _ _ hfree ho]
      refine ⟨?_, ?_, ?_⟩
      · dsimp only
        rw [upsertSession_contactAttempts]
      · dsimp only
        rw [upsertSession_claims]
        show ((cleared.claims ++ [_]).filter (claimKeyB env.gId week uid)) = _
        rw [List.filter_append, hclearedclaims]
        simp [claimKeyB, ho]
      · dsimp only
        unfold upsertSession
        rw [if_neg hany]
        dsimp only
        show ((cleared.sessions ++ [_]).filter (sessKeyB env.gId week uid)) = _
        rw [List.filter_append, List.filter_eq_nil_iff.2 hsessfree]
        simp [sessKeyB, ho]
    · have ho' : env.dmOk uid = false := by
        rcases Bool.eq_false_or_eq_true (env.dmOk uid) with h1 | h0
        · exact absurd h1 ho
        · exact h0
      rw [hpost, hrank, contact_user_for_week_dmClosed env now cleared week uid _ _ hfree ho']
      refine ⟨rfl, ?_, ?_⟩
      · show ((cleared.claims ++ [_]).filter (claimKeyB env.gId week uid)) = _
        rw [List.filter_append, hclearedclaims]
        simp [claimKeyB, ho']
      · show cleared.sessions.filter (sessKeyB env.gId week uid) = _
        rw [List.filter_eq_nil_iff.2 hsessfree]
        simp [ho']

/-- C9 witness: force-contacting the dm_closed user 10 of `exStGap`-like
state re-contacts exactly once with the freshly computed rank. -/
theorem force_dm_round_trip_witness :
    (force_dm_for_user exEnv 300
        { exEmpty with
          activity := [⟨1, 10, 0, 5⟩, ⟨1, 11, 0, 3⟩],
          claims := [⟨1, 0, 10, 1, Status.dmClosed, 10⟩] } 0 10 none).1.contactAttempts =
      ({ exEmpty with
          activity := [⟨1, 10, 0, 5⟩, ⟨1, 11, 0, 3⟩],
          claims := [⟨1, 0, 10, 1, Status.dmClosed, 10⟩] } : St).contactAttempts ++
        [(0, 10)] :=
  ((force_dm_round_trip exEnv 300
      { exEmpty with
        activity := [⟨1, 10, 0, 5⟩, ⟨1, 11, 0, 3⟩],
        claims := [⟨1, 0, 10, 1, Status.dmClosed, 10⟩] } 0 10 none
      ⟨10, [], false⟩ ⟨1, 0, 10, 1, Status.dmClosed, 10⟩
      (by decide) (by decide) (by decide) (by decide)).2 (by decide)).1

/-! ## C8: the weekly scheduler tick -/

/-- Here `week_start_sunday(this_sunday - 1s)` is exactly seven days before
`this_sunday` (the previous week's start). -/
theorem week_start_sunday_prev (dt : MDateTime) :
    (week_start_sunday (minusOneSecond (week_start_sunday dt))).day =
      (week_start_sunday dt).day - 7 := by
  unfold week_start_sunday minusOneSecond
  dsimp only
  rw [if_pos rfl]
  dsimp only
  omega

/-- C8.  On a scheduler tick: if this Sunday's WeeklyRun row exists,
the tick changes nothing; otherwise the offer job runs for the previous
week (this Sunday minus 7 days) on the *pre-deletion* activity table,
then the run row for this Sunday is recorded, and then (and only then)
the previous week's activity rows are deleted. -/
theorem weekly_tick_behavior (env : Env) (nowDt : MDateTime) (now : Int) (st : St)
    (hg : env.guildPresent = true) :
    ((findRun st env.gId (week_start_sunday nowDt).day).isSome →
      weekly_tick env nowDt now st = st) ∧
    (findRun st env.gId (week_start_sunday nowDt).day = none →
      (weekly_tick env nowDt now st).claims =
        (run_weekly_job env now st ((week_start_sunday nowDt).day - 7)).claims ∧
      (weekly_tick env nowDt now st).outbox =
        (run_weekly_job env now st ((week_start_sunday nowDt).day - 7)).outbox ∧
      (weekly_tick env nowDt now st).contactAttempts =
        (run_weekly_job env now st ((week_start_sunday nowDt).day - 7)).contactAttempts ∧
      findRun (weekly_tick env nowDt now st) env.gId (week_start_sunday nowDt).day =
        some ⟨env.gId, (week_start_sunday nowDt).day, now⟩ ∧
      (weekly_tick env nowDt now st).activity.filter
          (fun r => r.guild == env.gId &&
            r.week == (week_start_sunday nowDt).day - 7) = []) := by
  constructor
  · intro hsome
    cases h : findRun st env.gId (week_start_sunday nowDt).day with
    | none => rw [h] at hsome; exact absurd hsome (by simp)
    | some r => simp [weekly_tick, hg, h]
  · intro hnone
    have hpost : weekly_tick env nowDt now st =
        { insertOrReplaceRun
            (run_weekly_job env now st ((week_start_sunday nowDt).day - 7))
            env.gId (week_start_sunday nowDt).day now with
          activity :=
            (insertOrReplaceRun
              (run_weekly_job env now st ((week_start_sunday nowDt).day - 7))
              env.gId (week_start_sunday nowDt).day now).activity.filter
              (fun r => !(r.guild == env.gId &&
                r.week == (week_start_sunday nowDt).day - 7)) } := by
      simp [weekly_tick, hg, hnone, week_start_sunday_prev]
    rw [hpost]
    refine ⟨rfl, rfl, rfl, ?_, ?_⟩
    · show findRun (insertOrReplaceRun _ env.gId (week_start_sunday nowDt).day now)
          env.gId (week_start_sunday nowDt).day = _
      unfold findRun insertOrReplaceRun
      dsimp only
      rw [List.find?_append]
      have hfilt : ((run_weekly_job env now st
          ((week_start_sunday nowDt).day - 7)).runs.filter
            (fun r => !(r.guild == env.gId &&
              r.week == (week_start_sunday nowDt).day))).find?
          (fun r => r.guild == env.gId && r.week == (week_start_sunday nowDt).day) =
          none := by
        refine List.find?_eq_none.2 (fun x hx hkey => ?_)
        have := (List.mem_filter.1 hx).2
        rw [hkey] at this
        exact absurd this (by decide)
      rw [hfilt]
      simp [List.find?]
    · dsimp only
      refine List.filter_eq_nil_iff.2 (fun r hr => ?_)
      intro hkey
      have := (List.mem_filter.1 hr).2
      rw [hkey] at this
      exact absurd this (by decide)

/-- C8 witness: with an existing run row for Sunday day 13 the tick is a
no-op; on the empty store it records the run row for day 13. -/
theorem weekly_tick_behavior_witness :
    weekly_tick exEnv ⟨13, 5000⟩ 1000 { exEmpty with runs := [⟨1, 13, 50⟩] } =
      { exEmpty with runs := [⟨1, 13, 50⟩] } ∧
    findRun (weekly_tick exEnv ⟨13, 5000⟩ 1000 exEmpty) exEnv.gId 13 =
      some ⟨1, 13, 1000⟩ :=
  ⟨(weekly_tick_behavior exEnv ⟨13, 5000⟩ 1000
      { exEmpty with runs := [⟨1, 13, 50⟩] } (by decide)).1 (by decide),
   ((weekly_tick_behavior exEnv ⟨13, 5000⟩ 1000 exEmpty (by decide)).2
      (by decide)).2.2.2.1⟩

/-! ## C4: re-running the weekly job -/

theorem findClaim_upsertSession (st : St) (g2 : Nat) (w2 : Int) (u2 : Nat) (e : Int)
    (g : Nat) (w : Int) (u : Nat) :
    findClaim (upsertSession st g2 w2 u2 e) g w u = findClaim st g w u := by
  unfold findClaim
  rw [upsertSession_claims]

theorem find?_append_claims (l : List Claim) (c : Claim) (g : Nat) (w : Int) (u : Nat)
    (h : claimKeyB g w u c = false) :
    (l ++ [c]).find? (claimKeyB g w u) = l.find? (claimKeyB g w u) := by
  rw [List.find?_append]
  have h2 : [c].find? (claimKeyB g w u) = none := by simp [List.find?, h]
  rw [h2]
  cases l.find? (claimKeyB g w u) <;> rfl

/-- walking the offer loop never disturbs an existing claim row and
never attempts to contact its holder again. -/
theorem jobLoop_preserves_claim (env : Env) (now : Int) (week : Int) (tH winners : Nat) :
    ∀ (l : List (Nat × Nat)) (c : Nat) (st : St) (u : Nat) (cl : Claim),
    findClaim st env.gId week u = some cl →
    findClaim (jobLoop env now week tH winners l c st) env.gId week u = some cl ∧
    attemptCount (jobLoop env now week tH winners l c st) week u =
      attemptCount st week u := by
  intro l
  induction l with
  | nil => exact fun c st u cl h => ⟨h, rfl⟩
  | cons e rest ih =>
    obtain ⟨idx, v⟩ := e
    intro c st u cl h
    by_cases hw : winners ≤ c
    · have hstep : jobLoop env now week tH winners ((idx, v) :: rest) c st = st := by
        simp only [jobLoop]
        rw [if_pos hw]
      rw [hstep]
      exact ⟨h, rfl⟩
    · cases hfc : findClaim st env.gId week v with
      | some cv =>
        have hstep : jobLoop env now week tH winners ((idx, v) :: rest) c st =
            jobLoop env now week tH winners rest c st := by
          simp only [jobLoop]
          rw [if_neg hw, contact_user_for_week_skip env now st week v idx tH cv hfc]
          rfl
        rw [hstep]
        exact ih c st u cl h
      | none =>
        have hvu : v ≠ u := by
          intro hvu
          rw [hvu, h] at hfc
          exact Option.noConfusion hfc
        have hkeyne : claimKeyB env.gId week u
            (⟨env.gId, week, v, idx, Status.pending, now⟩ : Claim) = false ∧
            claimKeyB env.gId week u
            (⟨env.gId, week, v, idx, Status.dmClosed, now⟩ : Claim) = false := by
          constructor <;> simp [claimKeyB, hvu]
        by_cases ho : env.dmOk v = true
        · have hstep : jobLoop env now week tH winners ((idx, v) :: rest) c st =
              jobLoop env now week tH winners rest (c + 1)
                (upsertSession
                  { st with
                    contactAttempts := st.contactAttempts ++ [(week, v)],
                    outbox := st.outbox ++ [Msg.requestDm v
                      (build_request_dm_text tH (now + (tH : Int) * 3600))],
                    claims := st.claims ++
                      [⟨env.gId, week, v, idx, Status.pending, now⟩] }
                  env.gId week v (now + (tH : Int) * 3600)) := by
            simp only [jobLoop]
            rw [if_neg hw, contact_user_for_week_dmOk env now st week v idx tH hfc ho]
            rfl
          rw [hstep]
          have h1 : findClaim (upsertSession
              { st with
                contactAttempts := st.contactAttempts ++ [(week, v)],
                outbox := st.outbox ++ [Msg.requestDm v
                  (build_request_dm_text tH (now + (tH : Int) * 3600))],
                claims := st.claims ++
                  [⟨env.gId, week, v, idx, Status.pending, now⟩] }
              env.gId week v (now + (tH : Int) * 3600)) env.gId week u = some cl := by
            rw [findClaim_upsertSession]
            show (st.claims ++ [(⟨env.gId, week, v, idx, Status.pending, now⟩ : Claim)]).find?
              (claimKeyB env.gId week u) = some cl
            rw [find?_append_claims _ _ _ _ _ hkeyne.1]
            exact h
          obtain ⟨ha, hb⟩ := ih (c + 1) _ u cl h1
          refine ⟨ha, hb.trans ?_⟩
          unfold attemptCount
          rw [upsertSession_contactAttempts]
          show (st.contactAttempts ++ [(week, v)]).countP _ = _
          rw [List.countP_append]
          simp [hvu]
        · have ho' : env.dmOk v = false := by
            rcases Bool.eq_false_or_eq_true (env.dmOk v) with h1 | h0
            · exact absurd h1 ho
            · exact h0
          have hstep : jobLoop env now week tH winners ((idx, v) :: rest) c st =
              jobLoop env now week tH winners rest c
                { st with
                  contactAttempts := st.contactAttempts ++ [(week, v)],
                  claims := st.claims ++
                    [⟨env.gId, week, v, idx, Status.dmClosed, now⟩] } := by
            simp only [jobLoop]
            rw [if_neg hw, contact_user_for_week_dmClosed env now st week v idx tH hfc ho']
            rfl
          rw [hstep]
          have h1 : findClaim
              ({ st with
                contactAttempts := st.contactAttempts ++ [(week, v)],
                claims := st.claims ++
                  [⟨env.gId, week, v, idx, Status.dmClosed, now⟩] } : St)
              env.gId week u = some cl := by
            show (st.claims ++ [(⟨env.gId, week, v, idx, Status.dmClosed, now⟩ : Claim)]).find?
              (claimKeyB env.gId week u) = some cl
            rw [find?_append_claims _ _ _ _ _ hkeyne.2]
            exact h
          obtain ⟨ha, hb⟩ := ih c _ u cl h1
          refine ⟨ha, hb.trans ?_⟩
          unfold attemptCount
          show (st.contactAttempts ++ [(week, v)]).countP _ = _
          rw [List.countP_append]
          simp [hvu]

/-- the offer loop preserves primary-key uniqueness of `weekly_claims`:
a row is only ever inserted after the lookup for its key came back
empty. -/
theorem jobLoop_pk (env : Env) (now : Int) (week : Int) (tH winners : Nat) :
    ∀ (l : List (Nat × Nat)) (c : Nat) (st : St), ClaimsPK st →
    ClaimsPK (jobLoop env now week tH winners l c st) := by
  intro l
  induction l with
  | nil => exact fun c st h => h
  | cons e rest ih =>
    obtain ⟨idx, v⟩ := e
    intro c st hpk
    by_cases hw : winners ≤ c
    · have hstep : jobLoop env now week tH winners ((idx, v) :: rest) c st = st := by
        simp only [jobLoop]
        rw [if_pos hw]
      rw [hstep]
      exact hpk
    · cases hfc : findClaim st env.gId week v with
      | some cv =>
        have hstep : jobLoop env now week tH winners ((idx, v) :: rest) c st =
            jobLoop env now week tH winners rest c st := by
          simp only [jobLoop]
          rw [if_neg hw, contact_user_for_week_skip env now st week v idx tH cv hfc]
          rfl
        rw [hstep]
        exact ih c st hpk
      | none =>
        have hnewpk : ∀ s : Status, ClaimsPK
            ({ st with claims := st.claims ++
              [⟨env.gId, week, v, idx, s, now⟩] } : St) := by
          intro s
          unfold ClaimsPK
          show (st.claims ++ [(⟨env.gId, week, v, idx, s, now⟩ : Claim)]).Pairwise _
          rw [List.pairwise_append]
          refine ⟨hpk, List.pairwise_singleton _ _, ?_⟩
          intro a ha b hb
          have hbeq : b = ⟨env.gId, week, v, idx, s, now⟩ := by simpa using hb
          rw [hbeq]
          intro hk
          have := List.find?_eq_none.1 hfc a ha
          apply this
          simp [claimKeyB, hk.1, hk.2.1, hk.2.2]
        by_cases ho : env.dmOk v = true
        · have hstep : jobLoop env now week tH winners ((idx, v) :: rest) c st =
              jobLoop env now week tH winners rest (c + 1)
                (upsertSession
                  { st with
                    contactAttempts := st.contactAttempts ++ [(week, v)],
                    outbox := st.outbox ++ [Msg.requestDm v
                      (build_request_dm_text tH (now + (tH : Int) * 3600))],
                    claims := st.claims ++
                      [⟨env.gId, week, v, idx, Status.pending, now⟩] }
                  env.gId week v (now + (tH : Int) * 3600)) := by
            simp only [jobLoop]
            rw [if_neg hw, contact_user_for_week_dmOk env now st week v idx tH hfc ho]
            rfl
          rw [hstep]
          refine ih (c + 1) _ ?_
          unfold ClaimsPK
          rw [upsertSession_claims]
          exact hnewpk Status.pending
        · have ho' : env.dmOk v = false := by
            rcases Bool.eq_false_or_eq_true (env.dmOk v) with h1 | h0
            · exact absurd h1 ho
            · exact h0
          have hstep : jobLoop env now week tH winners ((idx, v) :: rest) c st =
              jobLoop env now week tH winners rest c
                { st with
                  contactAttempts := st.contactAttempts ++ [(week, v)],
                  claims := st.claims ++
                    [⟨env.gId, week, v, idx, Status.dmClosed, now⟩] } := by
            simp only [jobLoop]
            rw [if_neg hw, contact_user_for_week_dmClosed env now st week v idx tH hfc ho']
            rfl
          rw [hstep]
          exact ih c _ (hnewpk Status.dmClosed)

/-- C4.  Running the weekly offer job a second time for the same
week: primary-key uniqueness of WeeklyClaim is preserved (no duplicate
rows are created), and every candidate who already has a claim row after
the first run keeps that row unchanged and receives no further contact
attempt during the second run. -/
theorem run_weekly_job_rerun_idempotent (env : Env) (now now' : Int) (st : St)
    (week : Int) :
    (ClaimsPK st →
      ClaimsPK (run_weekly_job env now' (run_weekly_job env now st week) week)) ∧
    (∀ u cl, findClaim (run_weekly_job env now st week) env.gId week u = some cl →
      findClaim (run_weekly_job env now' (run_weekly_job env now st week) week)
          env.gId week u = some cl ∧
      attemptCount (run_weekly_job env now' (run_weekly_job env now st week) week) week u =
        attemptCount (run_weekly_job env now st week) week u) := by
  by_cases hgp : env.guildPresent = true
  · have hrw : ∀ (n : Int) (s : St), run_weekly_job env n s week =
        jobLoop env n week env.cfg.dmTimeoutHours env.cfg.winnersToDm
          (enumFrom 1 (eligibleRanked env s week)) 0 s := by
      intro n s
      unfold run_weekly_job
      rw [hgp]
      rfl
    constructor
    · intro hpk
      simp only [hrw]
      exact jobLoop_pk env now' week _ _ _ 0 _
        (jobLoop_pk env now week _ _ _ 0 st hpk)
    · intro u cl h
      simp only [hrw] at h ⊢
      exact jobLoop_preserves_claim env now' week _ _ _ 0 _ u cl h
  · have hgp' : env.guildPresent = false := by
      rcases Bool.eq_false_or_eq_true env.guildPresent with h1 | h0
      · exact absurd h1 hgp
      · exact h0
    have hid : ∀ (n : Int) (s : St), run_weekly_job env n s week = s := by
      intro n s
      unfold run_weekly_job
      rw [hgp']
      rfl
    rw [hid, hid]
    exact ⟨fun hpk => hpk, fun u cl h => ⟨h, rfl⟩⟩

/-- C4 witness: after a first run on `exStGap`-like data (user 11
contacted, pending), a second run neither duplicates user 11's row nor
re-contacts them. -/
theorem run_weekly_job_rerun_idempotent_witness :
    findClaim (run_weekly_job exEnv 2000
        (run_weekly_job exEnv 1000
          { exEmpty with activity := [⟨1, 10, 0, 5⟩, ⟨1, 11, 0, 3⟩] } 0) 0) 1 0 10 =
      some ⟨1, 0, 10, 1, Status.pending, 1000⟩ ∧
    attemptCount (run_weekly_job exEnv 2000
        (run_weekly_job exEnv 1000
          { exEmpty with activity := [⟨1, 10, 0, 5⟩, ⟨1, 11, 0, 3⟩] } 0) 0) 0 10 =
      attemptCount (run_weekly_job exEnv 1000
        { exEmpty with activity := [⟨1, 10, 0, 5⟩, ⟨1, 11, 0, 3⟩] } 0) 0 10 :=
  (run_weekly_job_rerun_idempotent exEnv 1000 2000
    { exEmpty with activity := [⟨1, 10, 0, 5⟩, ⟨1, 11, 0, 3⟩] } 0).2 10
    ⟨1, 0, 10, 1, Status.pending, 1000⟩ (by decide)

/-! ## C5: delivery failure consumes the slot; the pass continues -/

theorem enumFrom_map_snd {α : Type} : ∀ (n : Nat) (l : List α),
    (enumFrom n l).map Prod.snd = l
  | _, [] => rfl
  | n, a :: as => by
    rw [show enumFrom n (a :: as) = (n, a) :: enumFrom (n + 1) as from rfl,
      List.map_cons, enumFrom_map_snd (n + 1) as]

theorem enumFrom_filter_length {α : Type} (P : α → Bool) :
    ∀ (n : Nat) (l : List α),
    ((enumFrom n l).filter (fun e => P e.2)).length = (l.filter P).length := by
  intro n l
  induction l generalizing n with
  | nil => rfl
  | cons a as ih =>
    rw [show enumFrom n (a :: as) = (n, a) :: enumFrom (n + 1) as from rfl]
    by_cases h : P a = true
    · rw [List.filter_cons_of_pos (by exact h), List.filter_cons_of_pos h,
        List.length_cons, List.length_cons, ih (n + 1)]
    · rw [List.filter_cons_of_neg (by exact h), List.filter_cons_of_neg h, ih (n + 1)]

/-- number of request messages delivered by the offer loop: exactly
`min (winners_to_dm - contacted)` and the number of still-uncontacted,
deliverable candidates in the list. -/
theorem jobLoop_sentCount (env : Env) (now : Int) (week : Int) (tH winners : Nat) :
    ∀ (l : List (Nat × Nat)) (c : Nat) (st : St),
    (l.map Prod.snd).Nodup →
    sentCount (jobLoop env now week tH winners l c st) =
      sentCount st + min (winners - c)
        ((l.filter (fun e =>
          (findClaim st env.gId week e.2).isNone && env.dmOk e.2)).length) := by
  intro l
  induction l with
  | nil =>
    intro c st _
    simp [jobLoop]
  | cons e rest ih =>
    obtain ⟨idx, v⟩ := e
    intro c st hnd
    have hnd2 : (v :: rest.map Prod.snd).Nodup := by simpa using hnd
    have hnd' : (rest.map Prod.snd).Nodup := (List.nodup_cons.1 hnd2).2
    have hvnot : v ∉ rest.map Prod.snd := (List.nodup_cons.1 hnd2).1
    by_cases hw : winners ≤ c
    · have hstep : jobLoop env now week tH winners ((idx, v) :: rest) c st = st := by
        simp only [jobLoop]
        rw [if_pos hw]
      rw [hstep, Nat.sub_eq_zero_of_le hw]
      simp
    · cases hfc : findClaim st env.gId week v with
      | some cv =>
        have hstep : jobLoop env now week tH winners ((idx, v) :: rest) c st =
            jobLoop env now week tH winners rest c st := by
          simp only [jobLoop]
          rw [if_neg hw, contact_user_for_week_skip env now st week v idx tH cv hfc]
          rfl
        rw [hstep, List.filter_cons_of_neg (by simp [hfc]), ih c st hnd']
      | none =>
        have hfreeclaim : ∀ (s : Status) (x : Nat × Nat), ¬ v = x.2 →
            claimKeyB env.gId week x.2 (⟨env.gId, week, v, idx, s, now⟩ : Claim) =
              false := by
          intro s x hxv
          simp [claimKeyB, hxv]
        by_cases ho : env.dmOk v = true
        · have hstep : jobLoop env now week tH winners ((idx, v) :: rest) c st =
              jobLoop env now week tH winners rest (c + 1)
                (upsertSession
                  { st with
                    contactAttempts := st.contactAttempts ++ [(week, v)],
                    outbox := st.outbox ++ [Msg.requestDm v
                      (build_request_dm_text tH (now + (tH : Int) * 3600))],
                    claims := st.claims ++
                      [⟨env.gId, week, v, idx, Status.pending, now⟩] }
                  env.gId week v (now + (tH : Int) * 3600)) := by
            simp only [jobLoop]
            rw [if_neg hw, contact_user_for_week_dmOk env now st week v idx tH hfc ho]
            rfl
          have hsent : sentCount (upsertSession
              { st with
                contactAttempts := st.contactAttempts ++ [(week, v)],
                outbox := st.outbox ++ [Msg.requestDm v
                  (build_request_dm_text tH (now + (tH : Int) * 3600))],
                claims := st.claims ++
                  [⟨env.gId, week, v, idx, Status.pending, now⟩] }
              env.gId week v (now + (tH : Int) * 3600)) = sentCount st + 1 := by
            unfold sentCount
            rw [upsertSession_outbox]
            show (st.outbox ++ [Msg.requestDm v _]).countP _ = _
            rw [List.countP_append]
            rfl
          have hptwise : ∀ x ∈ rest,
              ((findClaim (upsertSession
                { st with
                  contactAttempts := st.contactAttempts ++ [(week, v)],
                  outbox := st.outbox ++ [Msg.requestDm v
                    (build_request_dm_text tH (now + (tH : Int) * 3600))],
                  claims := st.claims ++
                    [⟨env.gId, week, v, idx, Status.pending, now⟩] }
                env.gId week v (now + (tH : Int) * 3600)) env.gId week x.2).isNone &&
                  env.dmOk x.2) =
              ((findClaim st env.gId week x.2).isNone && env.dmOk x.2) := by
            intro x hx
            have hxv : ¬ v = x.2 := by
              intro hvx
              exact hvnot (hvx ▸ List.mem_map_of_mem Prod.snd hx)
            have heq : findClaim (upsertSession
                { st with
                  contactAttempts := st.contactAttempts ++ [(week, v)],
                  outbox := st.outbox ++ [Msg.requestDm v
                    (build_request_dm_text tH (now + (tH : Int) * 3600))],
                  claims := st.claims ++
                    [⟨env.gId, week, v, idx, Status.pending, now⟩] }
                env.gId week v (now + (tH : Int) * 3600)) env.gId week x.2 =
                findClaim st env.gId week x.2 := by
              rw [findClaim_upsertSession]
              show (st.claims ++ [(⟨env.gId, week, v, idx, Status.pending, now⟩ :
                  Claim)]).find? (claimKeyB env.gId week x.2) =
                st.claims.find? (claimKeyB env.gId week x.2)
              exact find?_append_claims _ _ _ _ _
                (hfreeclaim Status.pending x hxv)
            rw [heq]
          rw [hstep, ih (c + 1) _ hnd', hsent, List.filter_congr hptwise,
            List.filter_cons_of_pos (by simp [hfc, ho]), List.length_cons]
          have hlt : c < winners := Nat.lt_of_not_le hw
          omega
        · have ho' : env.dmOk v = false := by
            rcases Bool.eq_false_or_eq_true (env.dmOk v) with h1 | h0
            · exact absurd h1 ho
            · exact h0
          have hstep : jobLoop env now week tH winners ((idx, v) :: rest) c st =
              jobLoop env now week tH winners rest c
                { st with
                  contactAttempts := st.contactAttempts ++ [(week, v)],
                  claims := st.claims ++
                    [⟨env.gId, week, v, idx, Status.dmClosed, now⟩] } := by
            simp only [jobLoop]
            rw [if_neg hw, contact_user_for_week_dmClosed env now st week v idx tH hfc ho']
            rfl
          have hptwise : ∀ x ∈ rest,
              ((findClaim
                ({ st with
                  contactAttempts := st.contactAttempts ++ [(week, v)],
                  claims := st.claims ++
                    [⟨env.gId, week, v, idx, Status.dmClosed, now⟩] } : St)
                env.gId week x.2).isNone && env.dmOk x.2) =
              ((findClaim st env.gId week x.2).isNone && env.dmOk x.2) := by
            intro x hx
            have hxv : ¬ v = x.2 := by
              intro hvx
              exact hvnot (hvx ▸ List.mem_map_of_mem Prod.snd hx)
            have heq : findClaim
                ({ st with
                  contactAttempts := st.contactAttempts ++ [(week, v)],
                  claims := st.claims ++
                    [⟨env.gId, week, v, idx, Status.dmClosed, now⟩] } : St)
                env.gId week x.2 = findClaim st env.gId week x.2 := by
              show (st.claims ++ [(⟨env.gId, week, v, idx, Status.dmClosed, now⟩ :
                  Claim)]).find? (claimKeyB env.gId week x.2) =
                st.claims.find? (claimKeyB env.gId week x.2)
              exact find?_append_claims _ _ _ _ _
                (hfreeclaim Status.dmClosed x hxv)
            rw [heq]
          have hsent : sentCount
              ({ st with
                contactAttempts := st.contactAttempts ++ [(week, v)],
                claims := st.claims ++
                  [⟨env.gId, week, v, idx, Status.dmClosed, now⟩] } : St) =
              sentCount st := rfl
          rw [hstep, ih c _ hnd', hsent, List.filter_congr hptwise,
            List.filter_cons_of_neg (by simp [hfc, ho'])]

/-- C5.  A contact attempt whose delivery fails inserts a
`dm_closed` claim row, creates no session, delivers nothing, and does
not count as a successful contact (result `false`); and the offer job
keeps advancing within the same pass: the number of request messages it
delivers is exactly the minimum of `winners_to_dm` and the number of
eligible ranked candidates who have no claim row yet and whose DMs are
open. -/
theorem dm_failure_consumes_slot (env : Env) (now : Int) (st : St) (week : Int) :
    (∀ uid rank tH, findClaim st env.gId week uid = none → env.dmOk uid = false →
      contact_user_for_week env now st week uid rank tH =
        ({ st with
           contactAttempts := st.contactAttempts ++ [(week, uid)],
           claims := st.claims ++
             [⟨env.gId, week, uid, rank, Status.dmClosed, now⟩] }, false)) ∧
    (env.guildPresent = true →
      (eligibleRanked env st week).Nodup →
      sentCount (run_weekly_job env now st week) =
        sentCount st + min env.cfg.winnersToDm
          ((eligibleRanked env st week).filter
            (fun u => (findClaim st env.gId week u).isNone && env.dmOk u)).length) := by
  constructor
  · intro uid rank tH hfree ho
    exact contact_user_for_week_dmClosed env now st week uid rank tH hfree ho
  · intro hgp hnd
    have hrw : run_weekly_job env now st week =
        jobLoop env now week env.cfg.dmTimeoutHours env.cfg.winnersToDm
          (enumFrom 1 (eligibleRanked env st week)) 0 st := by
      unfold run_weekly_job
      rw [hgp]
      rfl
    rw [hrw, jobLoop_sentCount env now week _ _ _ 0 st
      (by rw [enumFrom_map_snd]; exact hnd), Nat.sub_zero,
      enumFrom_filter_length (fun u => (findClaim st env.gId week u).isNone && env.dmOk u)]

/-- C5 witness: with user 10's DMs closed and `winners_to_dm = 1`, the
failed attempt records `dm_closed` without a session, and the job still
achieves its one successful contact (user 11) in the same pass. -/
theorem dm_failure_consumes_slot_witness :
    contact_user_for_week exEnvClosed 1000 exEmpty 0 10 1 48 =
      ({ exEmpty with
         contactAttempts := [(0, 10)],
         claims := [⟨1, 0, 10, 1, Status.dmClosed, 1000⟩] }, false) ∧
    sentCount (run_weekly_job exEnvClosed 1000
        { exEmpty with activity := [⟨1, 10, 0, 5⟩, ⟨1, 11, 0, 3⟩] } 0) =
      sentCount ({ exEmpty with activity := [⟨1, 10, 0, 5⟩, ⟨1, 11, 0, 3⟩] } : St) +
        min exEnvClosed.cfg.winnersToDm 1 :=
  ⟨(dm_failure_consumes_slot exEnvClosed 1000 exEmpty 0).1 10 1 48
      (by decide) (by decide),
   (dm_failure_consumes_slot exEnvClosed 1000
      { exEmpty with activity := [⟨1, 10, 0, 5⟩, ⟨1, 11, 0, 3⟩] } 0).2
      (by decide) (by decide)⟩

end AvenueGuard
